import Mathlib

/-!
Verification of the schema-to-feature-model compiler of this repository
(`scripts/model_generation/convert01.py` and
`scripts/model_generation/analisisScript01.py`).

The Python sources are shallowly embedded: every definition below is a direct
transcription of the corresponding Python function (names are kept, camel-cased).
Python strings are modelled as `String`/`List Char`; Python's `re` patterns are
transcribed one by one into specialised, executable matchers that reproduce the
scanning/greediness behaviour of the concrete pattern (leftmost match, ordered
alternation, greedy or lazy repetition as written in each pattern); Python `set`s
are modelled as first-occurrence-deduplicated lists, with membership used for
all set queries; functions that can raise are modelled with `Except String`.
-/

namespace FMGen

/-! ## Character and string utilities (Python semantics, ASCII fragment) -/

/-- Python `\s` (ASCII fragment; the input corpus is ASCII). -/
def isWsPy (c : Char) : Bool :=
  c = ' ' || c = '\t' || c = '\n' || c = '\r' || c = '\x0b' || c = '\x0c'

/-- ASCII letter. -/
def isAlphaAscii (c : Char) : Bool :=
  ('a' ≤ c && c ≤ 'z') || ('A' ≤ c && c ≤ 'Z')

/-- ASCII digit. -/
def isDigitAscii (c : Char) : Bool :=
  '0' ≤ c && c ≤ '9'

/-- Python `\w` (ASCII fragment). -/
def isWordPy (c : Char) : Bool :=
  isAlphaAscii c || isDigitAscii c || c = '_'

/-- Character list of a string. -/
def lc (s : String) : List Char := s.data

/-- String from a character list. -/
def strOf (l : List Char) : String := ⟨l⟩

/-- Python `str.lower` (ASCII fragment). -/
def lowerL (l : List Char) : List Char := l.map Char.toLower

/-- Python `str.lower` on `String`. -/
def lowerStr (s : String) : String := ⟨lowerL s.data⟩

/-- Does `p` occur as a prefix of `t`? -/
def startsWithL : List Char → List Char → Bool
  | [], _ => true
  | _ :: _, [] => false
  | p :: ps, c :: cs => p = c && startsWithL ps cs

/-- Does `p` occur as a suffix of `t`? -/
def endsWithL (p t : List Char) : Bool :=
  startsWithL p.reverse t.reverse

/-- Python `p in t` substring containment. -/
def containsL (pat : List Char) : List Char → Bool
  | [] => startsWithL pat []
  | c :: cs => startsWithL pat (c :: cs) || containsL pat cs

/-- Python `pat in s` on `String`. -/
def containsSub (pat s : String) : Bool := containsL pat.data s.data

/-- Fuelled worker for `replaceAllL`. -/
def replaceAllF : Nat → List Char → List Char → List Char → List Char
  | 0, _, _, t => t
  | _ + 1, _, _, [] => []
  | n + 1, pat, rep, c :: cs =>
      if pat ≠ [] && startsWithL pat (c :: cs) then
        rep ++ replaceAllF n pat rep (cs.drop (pat.length - 1))
      else c :: replaceAllF n pat rep cs

/-- Python `str.replace` (all non-overlapping occurrences, left to right);
`pat` is nonempty in every use below. -/
def replaceAllL (pat rep t : List Char) : List Char :=
  replaceAllF (t.length + 1) pat rep t

/-- Python `s.replace(pat, rep)` on `String`. -/
def replacePy (s pat rep : String) : String :=
  ⟨replaceAllL pat.data rep.data s.data⟩

/-- Python `str.strip()` (whitespace both ends). -/
def stripPyL (l : List Char) : List Char :=
  ((l.dropWhile isWsPy).reverse.dropWhile isWsPy).reverse

/-- Python `s.strip()` on `String`. -/
def stripPy (s : String) : String := ⟨stripPyL s.data⟩

/-- Python `s.endswith(p)` on `String`. -/
def endsWithPy (p s : String) : Bool := endsWithL p.data s.data

/-- Numeric value of a digit list (Python `int(...)` on a `\d+` capture). -/
def natOfDigits (l : List Char) : Nat :=
  l.foldl (fun acc c => acc * 10 + (c.toNat - '0'.toNat)) 0

/-- Are all characters ASCII digits (Python `str.isdigit` on our captures)? -/
def allDigits (l : List Char) : Bool :=
  l ≠ [] && l.all isDigitAscii

/-- Python `s.rsplit('_', 1)[0]`: drop the last underscore-separated segment. -/
def featureWithoutLast (s : String) : String :=
  if s.data.contains '_' then
    ⟨(((s.data.reverse).dropWhile (fun c => c ≠ '_')).drop 1).reverse⟩
  else s

/-- Python `s.split(sep)[-1]` for a single-character separator. -/
def lastSegBy (sep : Char) (s : String) : String :=
  ⟨((s.data.reverse).takeWhile (fun c => c ≠ sep)).reverse⟩

/-- Python `str.capitalize`: first character upper-cased, rest lower-cased. -/
def pyCapitalize (s : String) : String :=
  match s.data with
  | [] => ""
  | c :: cs => ⟨c.toUpper :: lowerL cs⟩

/-- Python `sep.join(parts)`. -/
def joinSep (sep : String) : List String → String
  | [] => ""
  | [x] => x
  | x :: y :: xs => x ++ sep ++ joinSep sep (y :: xs)

/-- Worker for `dedupFirst`. -/
def dedupFirstAux : List String → List String → List String
  | [], _ => []
  | x :: xs, seen =>
      if seen.contains x then dedupFirstAux xs seen
      else x :: dedupFirstAux xs (x :: seen)

/-- First-occurrence deduplication: the canonical list model of a Python `set`
built by repeated insertion (iteration order of CPython string sets is *not*
specified; membership and cardinality are the faithful parts of this model). -/
def dedupFirst (l : List String) : List String := dedupFirstAux l []

/-- Equality of two lists viewed as sets (Python `set == set`). -/
def setEqL (a b : List String) : Bool :=
  a.all b.contains && b.all a.contains

/-! ## Specialised scanning combinators for the transcribed `re` patterns

Each Python pattern used by the sources is transcribed into a matcher
`List Char → Option (α × List Char)` that attempts a match anchored at the
head of the given suffix and returns the captured group(s) together with the
rest of the text after the match.  `searchF` (Python `pattern.search`) and
`findAllF` (Python `pattern.findall`) scan positions left to right. -/

/-- Match a literal at the head of the text.  `icase` models `re.IGNORECASE`;
`dots` treats `'.'` in the literal as the regex metacharacter `.` (any
character except a newline), used for patterns whose dots are unescaped. -/
def litAt (icase dots : Bool) : List Char → List Char → Option (List Char)
  | [], t => some t
  | _ :: _, [] => none
  | p :: ps, c :: cs =>
      let ok :=
        if dots && p = '.' then c ≠ '\n'
        else if icase then p.toLower = c.toLower
        else p = c
      if ok then litAt icase dots ps cs else none

/-- One mandatory `\s` character. -/
def wsOne : List Char → Option (List Char)
  | c :: cs => if isWsPy c then some cs else none
  | [] => none

/-- `\s+` (greedy; every use below is followed by a non-whitespace token,
so maximal munch is exact). -/
def wsPlus (t : List Char) : Option (List Char) :=
  let run := t.takeWhile isWsPy
  if run.isEmpty then none else some (t.drop run.length)

/-- `\s*` (greedy, same remark). -/
def wsStar (t : List Char) : List Char :=
  t.drop (t.takeWhile isWsPy).length

/-- `cls+` capture (greedy; every use below is followed by a token outside
`cls`, so maximal munch is exact). -/
def clsPlus (cls : Char → Bool) (t : List Char) : Option (List Char × List Char) :=
  let run := t.takeWhile cls
  if run.isEmpty then none else some (run, t.drop run.length)

/-- `(\w+)` capture. -/
def wordPlus (t : List Char) : Option (List Char × List Char) := clsPlus isWordPy t

/-- `(\d+)` capture. -/
def digitsPlus (t : List Char) : Option (List Char × List Char) := clsPlus isDigitAscii t

/-- A single literal character. -/
def chOne (c : Char) : List Char → Option (List Char)
  | x :: xs => if x = c then some xs else none
  | [] => none

/-- `cls+` capture followed by a one-character lookahead `(?=la)`.  Exact for
every transcribed pattern because in each of them the lookahead character is
not a member of `cls`, so regex backtracking cannot shorten the run. -/
def runThenLa (cls la : Char → Bool) (t : List Char) : Option (List Char × List Char) :=
  match clsPlus cls t with
  | none => none
  | some (run, rest) =>
      match rest with
      | c :: _ => if la c then some (run, rest) else none
      | [] => none

/-- Python `pattern.search`: first match scanning left to right. -/
def searchF {α : Type} (m : List Char → Option (α × List Char)) : Nat → List Char → Option α
  | 0, _ => none
  | n + 1, t =>
      match m t with
      | some (a, _) => some a
      | none =>
          match t with
          | [] => none
          | _ :: ts => searchF m n ts

/-- Python `pattern.search` with default fuel. -/
def searchD {α : Type} (m : List Char → Option (α × List Char)) (t : List Char) : Option α :=
  searchF m (t.length + 1) t

/-- Python `pattern.findall`: non-overlapping matches, scanning resumes after
each match (all transcribed matchers consume at least one character). -/
def findAllF {α : Type} (m : List Char → Option (α × List Char)) : Nat → List Char → List α
  | 0, _ => []
  | _ + 1, [] => []
  | n + 1, c :: cs =>
      match m (c :: cs) with
      | some (a, rest) =>
          if rest.length < cs.length + 1 then a :: findAllF m n rest
          else a :: findAllF m n cs
      | none => findAllF m n cs

/-- Python `pattern.findall` with default fuel. -/
def findAllD {α : Type} (m : List Char → Option (α × List Char)) (t : List Char) : List α :=
  findAllF m (t.length + 1) t

/-- Word-boundary check after a match (`\b`). -/
def boundaryOkAfter : List Char → Bool
  | [] => true
  | c :: _ => !isWordPy c

/-- Ordered alternation of literal words with a trailing `\b` each. -/
def altAtB (ws : List (List Char)) (t : List Char) : Option (List Char × List Char) :=
  match ws with
  | [] => none
  | w :: rest =>
      match litAt false false w t with
      | some r => if boundaryOkAfter r then some (w, r) else altAtB rest t
      | none => altAtB rest t

/-- Fuelled worker for `wordAltAll`, carrying whether the previous character
was a word character (for the leading `\b`). -/
def wordAltAllF (ws : List (List Char)) : Nat → Bool → List Char → List (List Char)
  | 0, _, _ => []
  | _ + 1, _, [] => []
  | n + 1, prevW, c :: cs =>
      match (if prevW then none else altAtB ws (c :: cs)) with
      | some (w, rest) => w :: wordAltAllF ws n true rest
      | none => wordAltAllF ws n (isWordPy c) cs

/-- Python `re.findall` for a pattern `\b(w1|w2|...)\b`. -/
def wordAltAll (ws : List String) (t : List Char) : List (List Char) :=
  wordAltAllF (ws.map lc) (t.length + 1) false t

/-- Shortest prefix of `s` ending with `marker` (Python `re.search(r'^(.*?marker)', s)`),
implemented as: up to and including the first occurrence of the marker. -/
def upToFirstF (m : List Char) : Nat → List Char → List Char → Option (List Char)
  | 0, _, _ => none
  | n + 1, acc, t =>
      if startsWithL m t then some (acc.reverse ++ m)
      else
        match t with
        | [] => none
        | c :: cs => upToFirstF m n (c :: acc) cs

/-- `re.search(r'^(.*?MARKER)', s)` capture. -/
def upToFirstOcc (marker s : String) : Option String :=
  (upToFirstF marker.data (s.data.length + 1) [] s.data).map strOf

/-! ## `analisisScript01.py` — transcribed regular expressions -/

/-- The class `[a-zA-Z\s,]`. -/
def clsAlphaWsComma (c : Char) : Bool :=
  isAlphaAscii c || isWsPy c || c = ','

/-- Optional single literal character (`c?` in a pattern whose later tokens
cannot match `c`, so the greedy option is exact). -/
def optCh (c : Char) (t : List Char) : List Char :=
  match chOne c t with
  | some r => r
  | none => t

/-- One token of a transcribed pattern (see `runToks`). -/
inductive RTok where
  | lit (s : String)
  | litI (s : String)
  | litD (s : String)
  | litDC (s : String)
  | anyCh
  | wsOneT
  | wsPlusT
  | wsStarT
  | ch (c : Char)
  | chOpt (c : Char)
  | capCls (cls : Char → Bool)
  | capOne (cls : Char → Bool)
  | capAlt (ws : List String)
  | skipCls (cls : Char → Bool)
  | la (cls : Char → Bool)

/-- Semantics of a single pattern token: `lit`/`litI`/`litD`/`litDC` are
literals (case-sensitive / `re.IGNORECASE` / `re.IGNORECASE` with
unescaped-dot metacharacters / case-sensitive with unescaped-dot
metacharacters), `anyCh` is the metacharacter `.`, `wsOneT` is a single `\s`
(for fixed-width lookbehinds), `wsPlusT`/`wsStarT` are `\s+`/`\s*`,
`ch`/`chOpt` a literal character and its greedy `?` variant,
`capCls`/`capOne` a captured greedy `cls+` / single-character `(cls)`,
`capAlt` an ordered literal alternation capture, `skipCls` an uncaptured
greedy `cls+`, and `la` a one-character lookahead `(?=cls)`. -/
def stepTok : RTok → List Char → Option (Option (List Char) × List Char)
  | .lit s, t => (litAt false false s.data t).map fun r => (none, r)
  | .litI s, t => (litAt true false s.data t).map fun r => (none, r)
  | .litD s, t => (litAt true true s.data t).map fun r => (none, r)
  | .litDC s, t => (litAt false true s.data t).map fun r => (none, r)
  | .anyCh, t =>
      match t with
      | c :: cs => if c ≠ '\n' then some (none, cs) else none
      | [] => none
  | .wsOneT, t => (wsOne t).map fun r => (none, r)
  | .wsPlusT, t => (wsPlus t).map fun r => (none, r)
  | .wsStarT, t => some (none, wsStar t)
  | .ch c, t => (chOne c t).map fun r => (none, r)
  | .chOpt c, t => some (none, optCh c t)
  | .capCls cls, t => (clsPlus cls t).map fun p => (some p.1, p.2)
  | .capOne cls, t =>
      match t with
      | c :: cs => if cls c then some (some [c], cs) else none
      | [] => none
  | .capAlt ws, t =>
      match ws.findSome? (fun w => (litAt false false w.data t).map fun r => (w.data, r)) with
      | some (w, r) => some (some w, r)
      | none => none
  | .skipCls cls, t => (clsPlus cls t).map fun p => (none, p.2)
  | .la cls, t =>
      match t with
      | c :: _ => if cls c then some (none, t) else none
      | [] => none

/-- Run a token list at the head of the text, returning the captures in order
and the rest of the text.  Exact for the transcribed patterns: in each of
them every greedy repetition is delimited by a token outside its class and
every optional character is outside the classes that follow it, so the
`re` engine's backtracking never produces a different parse. -/
def runToks : List RTok → List Char → Option (List (List Char) × List Char)
  | [], t => some ([], t)
  | tok :: rest, t =>
      match stepTok tok t with
      | none => none
      | some (cap, r) =>
          match runToks rest r with
          | none => none
          | some (caps, rf) =>
              some ((match cap with | some g => g :: caps | none => caps), rf)

/-- Convenience view of a two-capture pattern. -/
def runToks2 (ts : List RTok) (t : List Char) :
    Option ((List Char × List Char) × List Char) :=
  match runToks ts t with
  | some ([g1, g2], r) => some ((g1, g2), r)
  | _ => none

/-- Convenience view of a one-capture pattern. -/
def runToks1 (ts : List RTok) (t : List Char) :
    Option (List Char × List Char) :=
  match runToks ts t with
  | some ([g], r) => some (g, r)
  | _ => none

/-- `template_spec_policy_pattern01 =
`(?<=The only allowed template.spec.restartPolicy value is\s)\"([A-Za-z]+)\"`,
`re.IGNORECASE` (the unescaped dots are the any-character metacharacter). -/
def matchOnlyAllowedPolicy (t : List Char) : Option (List Char × List Char) :=
  runToks1 [.litD "The only allowed template.spec.restartPolicy value is", .wsOneT,
    .ch '"', .capCls isAlphaAscii, .ch '"'] t

/-- `template_spec_policies_pattern02 = \"([A-Za-z]+)\"` (also
`only_if_pattern` of `extract_constraints_if`). -/
def matchQuotedAlpha (t : List Char) : Option (List Char × List Char) :=
  runToks1 [.ch '"', .capCls isAlphaAscii, .ch '"'] t

/-- `exclusive_pattern = \`([A-Za-z]+)\``. -/
def matchTickedAlpha (t : List Char) : Option (List Char × List Char) :=
  runToks1 [.ch '`', .capCls isAlphaAscii, .ch '`'] t

/-- `type_notbe_pattern =
`(?<=conditions may not be\s)\"([A-Za-z]+)\"\s+or\s+\"([A-Za-z]+)\"`. -/
def matchTypeNotBe (t : List Char) : Option ((List Char × List Char) × List Char) :=
  runToks2 [.lit "conditions may not be", .wsOneT, .ch '"', .capCls isAlphaAscii,
    .ch '"', .wsPlusT, .lit "or", .wsPlusT, .ch '"', .capCls isAlphaAscii, .ch '"'] t

/-- `least_one_pattern01 = (?<=a least one of\s)(\w+)\s+or\s+(\w+)`, `re.IGNORECASE`. -/
def matchALeastOneOf (t : List Char) : Option ((List Char × List Char) × List Char) :=
  runToks2 [.litI "a least one of", .wsOneT, .capCls isWordPy, .wsPlusT, .litI "or",
    .wsPlusT, .capCls isWordPy] t

/-- `exactly_least_one_pattern02 = (?<=Exactly one of\s)\`(\w+)\`\s+or\s+\`(\w+)\``,
`re.IGNORECASE`. -/
def matchExactlyOneOfTicked (t : List Char) : Option ((List Char × List Char) × List Char) :=
  runToks2 [.litI "Exactly one of", .wsOneT, .ch '`', .capCls isWordPy, .ch '`',
    .wsPlusT, .litI "or", .wsPlusT, .ch '`', .capCls isWordPy, .ch '`'] t

/-- `at_least_one_pattern01 = (?<=At least one of\s)\`(\w+)\`\s+and\s+\`(\w+)\``,
`re.IGNORECASE`. -/
def matchAtLeastOneOfTicked (t : List Char) : Option ((List Char × List Char) × List Char) :=
  runToks2 [.litI "At least one of", .wsOneT, .ch '`', .capCls isWordPy, .ch '`',
    .wsPlusT, .litI "and", .wsPlusT, .ch '`', .capCls isWordPy, .ch '`'] t

/-- `operator_is_pattern01 = If the operator is\s+(\w+)\s+or\s+(\w+)`, `re.IGNORECASE`. -/
def matchIfOperatorPair (t : List Char) : Option ((List Char × List Char) × List Char) :=
  runToks2 [.litI "If the operator is", .wsPlusT, .capCls isWordPy, .wsPlusT,
    .litI "or", .wsPlusT, .capCls isWordPy] t

/-- `operator_if_pattern02 = If the operator is\s+(\w+)`. -/
def matchIfOperatorSingle (t : List Char) : Option (List Char × List Char) :=
  runToks1 [.lit "If the operator is", .wsPlusT, .capCls isWordPy] t

/-- `osName_pattern =
`(?<=Note that this field cannot be set when spec.os.name is\s)([a-zA-Z\s,]+)(?=\.)`,
`re.IGNORECASE` (unescaped dots in the lookbehind are metacharacters). -/
def matchOsNameSet (t : List Char) : Option (List Char × List Char) :=
  runToks1 [.litD "Note that this field cannot be set when spec.os.name is", .wsOneT,
    .capCls clsAlphaWsComma, .la (fun c => c = '.')] t

/-- `required_when_pattern = Required when\s+(\w+)\s+is\s+set\s+to\s+"([^"]+)"`,
`re.IGNORECASE`. -/
def matchRequiredWhenQuoted (t : List Char) : Option ((List Char × List Char) × List Char) :=
  runToks2 [.litI "Required when", .wsPlusT, .capCls isWordPy, .wsPlusT, .litI "is",
    .wsPlusT, .litI "set", .wsPlusT, .litI "to", .wsPlusT, .ch '"',
    .capCls (fun c => c ≠ '"'), .ch '"'] t

/-- `must_be_unset_pattern = must be unset when\s+(\w+)\s+is\s+set\s+to\s+"([^"]+)"`,
`re.IGNORECASE`. -/
def matchMustBeUnsetQuoted (t : List Char) : Option ((List Char × List Char) × List Char) :=
  runToks2 [.litI "must be unset when", .wsPlusT, .capCls isWordPy, .wsPlusT, .litI "is",
    .wsPlusT, .litI "set", .wsPlusT, .litI "to", .wsPlusT, .ch '"',
    .capCls (fun c => c ≠ '"'), .ch '"'] t

/-- `required_when_pattern_strategy =
Required when\s+\`(\w+)\`\s+is\s+set\s+to\s+\`?\"?([^\"\`]+)\"?\`?`, `re.IGNORECASE`. -/
def matchRequiredWhenTicked (t : List Char) : Option ((List Char × List Char) × List Char) :=
  runToks2 [.litI "Required when", .wsPlusT, .ch '`', .capCls isWordPy, .ch '`',
    .wsPlusT, .litI "is", .wsPlusT, .litI "set", .wsPlusT, .litI "to", .wsPlusT,
    .chOpt '`', .chOpt '"', .capCls (fun c => c ≠ '"' && c ≠ '`'),
    .chOpt '"', .chOpt '`'] t

/-- `value_minimum_pattern = (?<=Minimum value is\s)(\d+)`. -/
def matchMinimumValueIs (t : List Char) : Option (List Char × List Char) :=
  runToks1 [.lit "Minimum value is", .wsOneT, .capCls isDigitAscii] t

/-- `value_text_pattern = (?<=minimum valid value for expirationSeconds is\s)(\d+)`. -/
def matchMinValidExpiration (t : List Char) : Option (List Char × List Char) :=
  runToks1 [.lit "minimum valid value for expirationSeconds is", .wsOneT,
    .capCls isDigitAscii] t

/-- `in_the_range_pattern = (?<=in the range\s)(\d+)-(\d+)`. -/
def matchInTheRangeDash (t : List Char) : Option ((List Char × List Char) × List Char) :=
  runToks2 [.lit "in the range", .wsOneT, .capCls isDigitAscii, .ch '-',
    .capCls isDigitAscii] t

/-- `range_pattern = (\d+)\s*<\s*\w+\s*<\s*(\d+)`. -/
def matchLtChain (t : List Char) : Option ((List Char × List Char) × List Char) :=
  runToks2 [.capCls isDigitAscii, .wsStarT, .ch '<', .wsStarT, .skipCls isWordPy,
    .wsStarT, .ch '<', .wsStarT, .capCls isDigitAscii] t

/-- `inclusive_range_pattern = (\d+)\s*-\s*(\d+)\s*\(inclusive\)`. -/
def matchInclusiveRange (t : List Char) : Option ((List Char × List Char) × List Char) :=
  runToks2 [.capCls isDigitAscii, .wsStarT, .ch '-', .wsStarT, .capCls isDigitAscii,
    .wsStarT, .lit "(inclusive)"] t

/-- `range_text_pattern = Number\s+must\s+be\s+in\s+the\s+range\s+(\d+)\s+to\s+(\d+)`,
`re.IGNORECASE`. -/
def matchRangeText (t : List Char) : Option ((List Char × List Char) × List Char) :=
  runToks2 [.litI "Number", .wsPlusT, .litI "must", .wsPlusT, .litI "be", .wsPlusT,
    .litI "in", .wsPlusT, .litI "the", .wsPlusT, .litI "range", .wsPlusT,
    .capCls isDigitAscii, .wsPlusT, .litI "to", .wsPlusT, .capCls isDigitAscii] t

/-- `between_text_pattern = must\s+be\s+between\s+(\d+)\s+and\s+(\d+)`, `re.IGNORECASE`. -/
def matchBetweenText (t : List Char) : Option ((List Char × List Char) × List Char) :=
  runToks2 [.litI "must", .wsPlusT, .litI "be", .wsPlusT, .litI "between", .wsPlusT,
    .capCls isDigitAscii, .wsPlusT, .litI "and", .wsPlusT, .capCls isDigitAscii] t

/-- Helper for `must_be`: the tail ` (\w+)` after the optional group. -/
def matchSpWord (t : List Char) : Option (List Char × List Char) :=
  runToks1 [.ch ' ', .capCls isWordPy] t

/-- `must_be = must be greater than(?: or equal to)? (\w+)`, `re.IGNORECASE`
(the greedy optional group is tried first and backtracked on failure,
exactly as in the `re` engine). -/
def matchMustBeGreater (t : List Char) : Option (List Char × List Char) :=
  (litAt true false (lc "must be greater than") t).bind fun t1 =>
  match litAt true false (lc " or equal to") t1 with
  | some t2 =>
      match matchSpWord t2 with
      | some r => some r
      | none => matchSpWord t1
  | none => matchSpWord t1

/-- `less_than_pattern = less than or equal to (\d+)`, `re.IGNORECASE`. -/
def matchLessThanOrEq (t : List Char) : Option (List Char × List Char) :=
  runToks1 [.litI "less than or equal to ", .capCls isDigitAscii] t

/-! ## `analisisScript01.py` — transcribed functions -/

/-- The module-level `word_to_num` table, via `convert_word_to_num`. -/
def convertWordToNum (w : String) : Option Nat :=
  if lowerStr w = "zero" then some 0
  else if lowerStr w = "one" then some 1
  else none

/-- `extract_constraints_template_onlyAllowed` (raises `ValueError`, modelled
as `Except.error`). -/
def extractConstraintsTemplateOnlyAllowed (description featureKey : String) :
    Except String String :=
  let d := description.data
  let featureWithSpec := featureKey ++ "_spec_restartPolicy"
  if containsSub "value is" description then
    match searchD matchOnlyAllowedPolicy d with
    | none => Except.error ("No se encontro un valor unico en la descripcion: " ++ description)
    | some g =>
        let policyAlways := featureWithSpec ++ "_" ++ strOf g
        Except.ok ("(" ++ policyAlways ++ " => " ++ featureKey ++ ") & (!" ++
          featureWithSpec ++ "_Never) & (!" ++ featureWithSpec ++ "_OnFailure)")
  else if containsSub "values are" description then
    let policiesMatch := findAllD matchQuotedAlpha d
    if policiesMatch.length < 2 then
      Except.error ("Se esperaban al menos dos valores en la descripcion: " ++ description)
    else
      let allowedPolicies := policiesMatch.map fun p => featureWithSpec ++ "_" ++ strOf p
      Except.ok ("(" ++ joinSep " | " allowedPolicies ++ "  => " ++ featureKey ++
        ") & (!" ++ featureWithSpec ++ "_Always)")
  else Except.error ("Descripcion inesperada para " ++ featureKey ++ ": " ++ description)

/-- `extract_constraints_string_oneOf` (the final `if uvl_rule is not None`
always holds, so the function always returns the possibly-empty rule). -/
def extractConstraintsStringOneOf (description featureKey : String) : String :=
  let fwl := featureWithoutLast featureKey
  let uvlRule :=
    if containsSub "indicates which one of" description then
      "(" ++ featureKey ++ " == \x27Group\x27 => " ++ fwl ++ "_group)" ++
      " | (" ++ featureKey ++ " == \x27ServiceAccount\x27 => " ++ fwl ++ "_serviceAccount)" ++
      " | (" ++ featureKey ++ " == \x27User\x27 => " ++ fwl ++ "_user)" ++
      " & !(" ++ fwl ++ "_group & " ++ fwl ++ "_serviceAccount)" ++
      " & !(" ++ fwl ++ "_serviceAccount & " ++ fwl ++ "_user)" ++
      " & !(" ++ fwl ++ "_group & " ++ fwl ++ "_user)"
    else ""
  stripPy uvlRule

/-- `extract_constraints_multiple_conditions`; the `.group`/index accesses on
failed matches raise in Python and are modelled as `Except.error`. -/
def extractConstraintsMultipleConditions (description featureKey : String) :
    Except String String :=
  let d := description.data
  let fwl := featureWithoutLast featureKey
  if containsSub "conditions may not be" description then
    match searchD matchTypeNotBe d with
    | none => Except.error "AttributeError: type_match is None"
    | some (t1, t2) =>
        let typesNotbe := "!" ++ featureKey ++ "_" ++ strOf t1 ++ " & !" ++
          featureKey ++ "_" ++ strOf t2
        match wordAltAll ["Approved", "Denied", "Failed"] d with
        | c0 :: c1 :: c2 :: _ =>
            Except.ok (stripPy (fwl ++ " => (" ++ fwl ++ "_type_" ++ strOf c0 ++ " | " ++
              fwl ++ "_type_" ++ strOf c1 ++ " | " ++ fwl ++ "_type_" ++ strOf c2 ++
              ") => " ++ typesNotbe))
        | _ => Except.error "IndexError: conditions_match"
  else if containsSub "Details about a waiting" description then
    let cs1 := fwl ++ "_running"
    let cs2 := fwl ++ "_terminated"
    Except.ok (stripPy (fwl ++ " => (" ++ featureKey ++ " => !" ++ cs1 ++ " & !" ++ cs2 ++ ")" ++
      " & (" ++ cs1 ++ " => !" ++ featureKey ++ " & !" ++ cs2 ++ ")" ++
      " & (" ++ cs2 ++ " => !" ++ featureKey ++ " & !" ++ cs1 ++ ")" ++
      "& (!" ++ cs1 ++ " & !" ++ cs2 ++ " => " ++ featureKey ++ ")"))
  else if containsSub "TCPSocket is NOT" description then
    let ex := fwl ++ "_exec"
    let hg := fwl ++ "_httpGet"
    let sl := fwl ++ "_sleep"
    Except.ok (stripPy (fwl ++ " => (" ++ ex ++ " | " ++ hg ++ " | " ++ sl ++ ")" ++
      " & !(" ++ ex ++ " & " ++ hg ++ ")" ++
      " & !(" ++ ex ++ " & " ++ sl ++ ")" ++
      " & !(" ++ hg ++ " & " ++ sl ++ ")" ++
      " & !" ++ featureKey))
  else Except.ok (stripPy "")

/-- `extract_constraints_primary_or`. -/
def extractConstraintsPrimaryOr (description featureKey : String) : String :=
  let fwl := featureWithoutLast featureKey
  if containsSub "non-resource access request" description then
    fwl ++ " => (" ++ featureKey ++ " | " ++ fwl ++ "_resourceAttributes) & !(" ++
      featureKey ++ " & " ++ fwl ++ "_resourceAttributes)"
  else if containsSub "succeededIndexes specifies" description then
    fwl ++ " => " ++ featureKey ++ " | " ++ fwl ++ "_succeededCount"
  else if containsSub "Represents the requirement on the container" description then
    fwl ++ " => (" ++ featureKey ++ " | " ++ fwl ++ "_onPodConditions) & !(" ++
      featureKey ++ " & " ++ fwl ++ "_onPodConditions)"
  else if containsSub "ResourceClaim object in the same namespace as this pod" description then
    fwl ++ " => (" ++ featureKey ++ " | " ++ fwl ++ "_resourceClaimTemplateName) & !(" ++
      featureKey ++ " & " ++ fwl ++ "_resourceClaimTemplateName)"
  else if containsSub "datasetUUID is" description then
    fwl ++ " => (" ++ featureKey ++ " | " ++ fwl ++ "_datasetName) & !(" ++
      featureKey ++ " & " ++ fwl ++ "_datasetName)"
  else ""

/-- `extract_constraints_least_one`. -/
def extractConstraintsLeastOne (description featureKey : String) : String :=
  let d := description.data
  let fwl := featureWithoutLast featureKey
  match searchD matchALeastOneOf d with
  | some (v1, v2) =>
      fwl ++ " => " ++ fwl ++ "_" ++ strOf v1 ++ " | " ++ fwl ++ "_" ++ strOf v2
  | none =>
    match searchD matchExactlyOneOfTicked d with
    | some (v1, v2) =>
        fwl ++ " => (" ++ fwl ++ "_" ++ strOf v1 ++ " | " ++ fwl ++ "_" ++ strOf v2 ++
          ") & !(" ++ fwl ++ "_" ++ strOf v1 ++ " & " ++ fwl ++ "_" ++ strOf v2 ++ ")"
    | none =>
      match searchD matchAtLeastOneOfTicked d with
      | some (v1, v2) =>
          fwl ++ " => " ++ fwl ++ "_" ++ strOf v1 ++ " | " ++ fwl ++ "_" ++ strOf v2
      | none => ""

/-- `extract_constraints_operator` (out-of-range list indexing and `.group` on
a failed match raise in Python, modelled as `Except.error`). -/
def extractConstraintsOperator (description featureKey : String) :
    Except String String :=
  let d := description.data
  let fwl := featureWithoutLast featureKey
  let m01 := findAllD matchIfOperatorPair d
  if m01 ≠ [] && !containsSub "is Exists," description then
    match m01 with
    | p1 :: p2 :: restPairs =>
        let base := "(" ++ fwl ++ "_operator_" ++ strOf p1.1 ++ " | " ++ fwl ++
          "_operator_" ++ strOf p1.2 ++ " => " ++ featureKey ++ ") | (" ++ fwl ++
          "_operator_" ++ strOf p2.1 ++ " |" ++ fwl ++ "_operator_" ++ strOf p2.2 ++
          " => !" ++ featureKey ++ ")"
        if containsSub "the operator is Gt or Lt" description then
          match restPairs with
          | p3 :: _ =>
              Except.ok (base ++ "| (" ++ fwl ++ "_operator_" ++ strOf p3.1 ++ " |" ++
                fwl ++ "_operator_" ++ strOf p3.2 ++ " => " ++ featureKey ++ ")")
          | [] => Except.error "IndexError: operator_match01[2]"
        else Except.ok base
    | _ => Except.error "IndexError: operator_match01[1]"
  else if containsSub "is Exists" description then
    match searchD matchIfOperatorSingle d with
    | some w => Except.ok (fwl ++ "_operator_" ++ strOf w ++ " => !" ++ featureKey)
    | none => Except.error "AttributeError: operator_match02 is None"
  else Except.ok ""

/-- `extract_constraints_os_name` (the `.group(1)` calls on a `re.search` that
cannot fail, given the guarding membership checks, are modelled as
`Except.error` in the unreachable branches). -/
def extractConstraintsOsName (description featureKey : String) :
    Except String String :=
  let d := description.data
  let pathOsName := "os_name"
  let listAnothers := ["_v1_Container_securityContext_", "_v1_EphemeralContainer_securityContext_",
    "_PodSecurityContext_", "_v1_SecurityContext_"]
  match searchD matchOsNameSet d with
  | some nameObtained =>
      if containsSub "_template_spec_" featureKey then
        match upToFirstOcc "_template_spec" featureKey with
        | some fw0 => Except.ok (fw0 ++ "_" ++ pathOsName ++ "_" ++ strOf nameObtained ++
            " => !" ++ featureKey)
        | none => Except.error "NameError: feature_without0"
      else if containsSub "_Pod_spec_" featureKey then
        match upToFirstOcc "_Pod_spec" featureKey with
        | some fw0 => Except.ok (fw0 ++ "_" ++ pathOsName ++ "_" ++ strOf nameObtained ++
            " => !" ++ featureKey)
        | none => Except.error "NameError: feature_without0"
      else if containsSub "_PodList_items_spec_" featureKey then
        match upToFirstOcc "_PodList_items_spec" featureKey with
        | some fw0 => Except.ok (fw0 ++ "_" ++ pathOsName ++ "_" ++ strOf nameObtained ++
            " => !" ++ featureKey)
        | none => Except.error "AttributeError: match is None"
      else if containsSub "_core_v1_PodSpec_" featureKey then
        match upToFirstOcc "_core_v1_PodSpec" featureKey with
        | some fw0 => Except.ok (fw0 ++ "_" ++ pathOsName ++ "_" ++ strOf nameObtained ++
            " => !" ++ featureKey)
        | none => Except.error "AttributeError: match is None"
      else if containsSub "_PodTemplateSpec_spec_" featureKey then
        match upToFirstOcc "_PodTemplateSpec_spec" featureKey with
        | some fw0 => Except.ok (fw0 ++ "_" ++ pathOsName ++ "_" ++ strOf nameObtained ++
            " => !" ++ featureKey)
        | none => Except.error "AttributeError: match is None"
      else if listAnothers.any (fun pat => containsSub pat featureKey) then
        Except.ok ("io_k8s_api_core_v1_PodSpec_os_name_" ++ strOf nameObtained ++
          " => !" ++ featureKey)
      else Except.ok ""
  | none => Except.ok ""

/-- `extract_constraints_mutualy_exclusive` (indexing `exclusive_match[1]`
with fewer than two matches raises `IndexError`). -/
def extractConstraintsMutualyExclusive (description featureKey : String) :
    Except String String :=
  let d := description.data
  let fwl := featureWithoutLast featureKey
  match findAllD matchTickedAlpha d with
  | t1 :: t2 :: _ =>
      Except.ok ("(" ++ fwl ++ "_" ++ strOf t1 ++ " => !" ++ fwl ++ "_" ++ strOf t2 ++
        ") & (" ++ fwl ++ "_" ++ strOf t2 ++ " => !" ++ fwl ++ "_" ++ strOf t1 ++ ")")
  | [_] => Except.error "IndexError: exclusive_match[1]"
  | [] => Except.ok ""

/-- `extract_constraints_if` (indexing `exempt_match[0..1]` with fewer than two
matches raises `IndexError`). -/
def extractConstraintsIf (description featureKey : String) : Except String String :=
  let d := description.data
  let fwl := featureWithoutLast featureKey
  match searchD matchQuotedAlpha d with
  | some v =>
      if !containsSub "exempt" featureKey then
        if containsSub "Must be set if type is" description ||
            containsSub "Must be set if and only if type" description ||
            containsSub "may be non-empty only if" description then
          Except.ok (fwl ++ "_type_" ++ strOf v ++ " <=> " ++ featureKey)
        else
          Except.ok (fwl ++ "_type_" ++ strOf v ++ " => " ++ featureKey)
      else
        match findAllD matchQuotedAlpha d with
        | a :: b :: _ =>
            Except.ok ("(" ++ fwl ++ "_type_" ++ strOf a ++ " => !" ++ featureKey ++
              ") | (" ++ fwl ++ "_type_" ++ strOf b ++ " => " ++ featureKey ++ ")")
        | _ => Except.error "IndexError: exempt_match"
  | none =>
      if containsSub "exempt" featureKey then
        match findAllD matchQuotedAlpha d with
        | a :: b :: _ =>
            Except.ok ("(" ++ fwl ++ "_type_" ++ strOf a ++ " => !" ++ featureKey ++
              ") | (" ++ fwl ++ "_type_" ++ strOf b ++ " => " ++ featureKey ++ ")")
        | _ => Except.error "IndexError: exempt_match"
      else Except.ok ""

/-- `extract_constraints_required_when`. -/
def extractConstraintsRequiredWhen (description featureKey : String) : String :=
  let d := description.data
  let fwl := featureWithoutLast featureKey
  match searchD matchRequiredWhenQuoted d, searchD matchMustBeUnsetQuoted d,
        searchD matchRequiredWhenTicked d with
  | some (rp, rv), some (up, uv), _ =>
      fwl ++ "_" ++ strOf rp ++ "_" ++ strOf rv ++ " => " ++ featureKey ++
        " & !(" ++ fwl ++ "_" ++ strOf up ++ "_" ++ strOf uv ++ ")"
  | none, none, some (vp, vv) =>
      fwl ++ "_" ++ strOf vp ++ "_" ++ strOf vv ++ " => " ++ featureKey
  | _, _, _ => ""

/-- `extract_minimum_value`.  In the source, `uvl_rule` is initialised to the
empty string, so the final `if uvl_rule is not None: return uvl_rule` always
returns and the closing `raise ValueError(...)` is unreachable; the function
therefore never raises and is modelled with a total `Except.ok`. -/
def extractMinimumValue (description featureKey : String) : Except String String :=
  let d := description.data
  let uvlRule :=
    match searchD matchMinimumValueIs d with
    | some g => featureKey ++ " > " ++ strOf g
    | none =>
      if containsSub "Value must be non-negative" description then
        featureKey ++ " > 0"
      else
        match searchD matchMinValidExpiration d with
        | some g => featureKey ++ " > " ++ strOf g
        | none =>
          match searchD matchInTheRangeDash d with
          | some (a, b) =>
              featureKey ++ " > " ++ strOf a ++ " & " ++ featureKey ++ " < " ++ strOf b
          | none => ""
  Except.ok uvlRule

/-- The result quadruple of `extract_bounds`. -/
structure Bounds where
  minBound : Option Nat
  maxBound : Option Nat
  isPortNumber : Bool
  isOtherNumber : Bool
deriving DecidableEq, Repr

/-- `extract_bounds`. -/
def extractBounds (description : String) : Bounds :=
  let isPort := containsSub "valid port number" (lowerStr description)
  let d0 := lowerL description.data
  let d1 := replaceAllL (lc "zero") (lc "0") d0
  let d := replaceAllL (lc "one") (lc "1") d1
  match searchD matchLtChain d with
  | some (a, b) => ⟨some (natOfDigits a), some (natOfDigits b), isPort, false⟩
  | none =>
  match searchD matchInclusiveRange d with
  | some (a, b) => ⟨some (natOfDigits a), some (natOfDigits b), isPort, false⟩
  | none =>
  match searchD matchRangeText d with
  | some (a, b) => ⟨some (natOfDigits a), some (natOfDigits b), isPort, false⟩
  | none =>
  match searchD matchBetweenText d with
  | some (a, b) => ⟨some (natOfDigits a), some (natOfDigits b), isPort, true⟩
  | none =>
    let gtM := searchD matchMustBeGreater d
    let ltM := searchD matchLessThanOrEq d
    let minB := match gtM with
      | some w => if allDigits w then some (natOfDigits w) else convertWordToNum (strOf w)
      | none => none
    let maxB := match ltM with
      | some n => some (natOfDigits n + 1)
      | none => none
    ⟨minB, maxB, isPort, gtM.isSome || ltM.isSome⟩

/-- `convert_to_uvl_constraints`: `Except.ok none` models the Python `None`
result (the untranslatable-description case that bumps the global counter);
`Except.ok (some s)` models returning the string `s`; `Except.error` models an
uncaught exception of one of the extraction helpers. -/
def convertToUvlConstraints (featureKey description typeData : String) :
    Except String (Option String) :=
  let b := extractBounds description
  if typeData = "Boolean" || typeData = "boolean" then
    if containsSub "Number must be in the range" description then
      let fwl := featureWithoutLast featureKey
      Except.ok (some (fwl ++ " => (" ++ featureKey ++ "_asInteger > 1 & " ++ featureKey ++
        "_asInteger < 65535) | (" ++ featureKey ++ "_asString == \x27IANA_SVC_NAME\x27)"))
    else if containsSub "required when" description || containsSub "Required when" description then
      Except.ok (some (extractConstraintsRequiredWhen description featureKey))
    else if containsSub "only if type" description ||
        containsSub "Must be set if type is" description ||
        containsSub "must be non-empty if and only if" description ||
        containsSub "field MUST be empty if" description ||
        containsSub "may be non-empty only if" description then
      (extractConstraintsIf description featureKey).map some
    else if containsSub "selector can be used to match multiple param objects based on their labels" description then
      (extractConstraintsMutualyExclusive description featureKey).map some
    else if containsSub "Note that this field cannot be" description then
      (extractConstraintsOsName description featureKey).map some
    else if containsSub "If the operator is" description then
      (extractConstraintsOperator description featureKey).map some
    else if containsSub "a least one of" description ||
        containsSub "Exactly one of" description ||
        containsSub "At least one of" description then
      Except.ok (some (extractConstraintsLeastOne description featureKey))
    else if containsSub "resource access request" description ||
        containsSub "succeededIndexes specifies" description ||
        containsSub "Represents the requirement on the container" description ||
        containsSub "ResourceClaim object in the same namespace as this pod" description ||
        containsSub "datasetUUID is" description then
      Except.ok (some (extractConstraintsPrimaryOr description featureKey))
    else if containsSub "conditions may not be" description ||
        containsSub "Details about a waiting" description ||
        containsSub "TCPSocket is NOT" description then
      (extractConstraintsMultipleConditions description featureKey).map some
    else if containsSub "template.spec.restartPolicy" description then
      (extractConstraintsTemplateOnlyAllowed description featureKey).map some
    else Except.ok none
  else if typeData = "Integer" || typeData = "integer" then
    if b.isPortNumber then
      let mn := b.minBound.getD 1
      let mx := b.maxBound.getD 65535
      Except.ok (some (featureKey ++ " > " ++ toString mn ++ " & " ++ featureKey ++
        " < " ++ toString mx))
    else
      match b.minBound, b.maxBound with
      | some mn, some mx =>
          Except.ok (some (featureKey ++ " > " ++ toString mn ++ " & " ++ featureKey ++
            " < " ++ toString mx))
      | some mn, none => Except.ok (some (featureKey ++ " > " ++ toString mn))
      | none, some mx => Except.ok (some (featureKey ++ " < " ++ toString mx))
      | none, none =>
          if containsSub "Minimum value is" description ||
              containsSub "Value must be non-negative" description ||
              containsSub "minimum valid value for" description ||
              containsSub "in the range" description then
            (extractMinimumValue description featureKey).map some
          else Except.ok none
  else if typeData = "" || typeData = "string" then
    if containsSub "conditions may not be" description then
      (extractConstraintsMultipleConditions description featureKey).map some
    else if containsSub "indicates which one of" description then
      Except.ok (some (extractConstraintsStringOneOf description featureKey))
    else Except.ok none
  else Except.ok none

/-- One entry of the `restrictions` list consumed by `generar_constraintsDef`. -/
structure DescriptionRecord where
  featureName : String
  description : String
  typeData : String
deriving DecidableEq, Repr

/-- Worker for `generar_constraintsDef`: the fold over the `restrictions`
list, accumulating the emitted rules and the global `count` of descriptions
whose conversion returned `None`. -/
def generarGo : List DescriptionRecord → List String → Nat →
    Except String (List String × Nat)
  | [], rules, cnt => Except.ok (rules, cnt)
  | r :: rest, rules, cnt =>
      match convertToUvlConstraints r.featureName r.description r.typeData with
      | Except.error e => Except.error e
      | Except.ok none => generarGo rest rules (cnt + 1)
      | Except.ok (some s) =>
          if s ≠ "" then generarGo rest (rules ++ [s]) cnt
          else generarGo rest rules cnt

/-- `generar_constraintsDef` on a well-shaped `restrictions` list (the global
`count` starts at `0` for the reported total). -/
def generarConstraintsDef (recs : List DescriptionRecord) :
    Except String (List String × Nat) :=
  generarGo recs [] 0

/-! ## `convert01.py` — transcribed regular expressions of `extract_values`
and of the default-value detectors -/

/-- A quote character (`["\']`). -/
def quoteCh (c : Char) : Bool := c = '"' || c = '\''

/-- Lazy content of value pattern 1, `(.*?)\\?["\']`: the shortest non-newline
run whose continuation is an optional backslash followed by a quote (the
greedy `\\?` is tried before the bare quote at each length, as in `re`). -/
def v01ContentF : Nat → List Char → List Char → Option (List Char × List Char)
  | 0, _, _ => none
  | n + 1, acc, t =>
      match t with
      | '\\' :: q :: rest =>
          if quoteCh q then some (acc.reverse, rest)
          else v01ContentF n ('\\' :: acc) (q :: rest)
      | c :: rest =>
          if quoteCh c then some (acc.reverse, rest)
          else if c = '\n' then none
          else v01ContentF n (c :: acc) rest
      | [] => none

/-- Value pattern 1: `\\?["\'](.*?)\\?["\']`. -/
def matchV01 (t : List Char) : Option (List Char × List Char) :=
  match t with
  | '\\' :: q :: rest =>
      if quoteCh q then v01ContentF (rest.length + 1) [] rest else none
  | q :: rest =>
      if quoteCh q then v01ContentF (rest.length + 1) [] rest else none
  | [] => none

/-- The class `[a-zA-Z/.\s]` of value pattern 2. -/
def clsV02 (c : Char) : Bool :=
  isAlphaAscii c || c = '/' || c = '.' || isWsPy c

/-- The trailing `[\'"]?\s*:` of value pattern 2. -/
def v02Finish : List Char → Option (List Char)
  | t =>
      let t1 := match t with
                | c :: r => if c = '\'' || c = '"' then r else t
                | [] => t
      chOne ':' (wsStar t1)

/-- Backtracking over the group length of value pattern 2, from the greedy
maximum down (`run` is the maximal `[a-zA-Z/.\s]` run at `t`). -/
def v02Down : Nat → List Char → List Char → Option (List Char × List Char)
  | 0, _, _ => none
  | m + 1, run, t =>
      if m + 1 < 2 then none
      else
        let cap := run.take (m + 1)
        if isAlphaAscii ((cap.getLast?).getD ' ') then
          match v02Finish (t.drop (m + 1)) with
          | some r => some (cap, r)
          | none => v02Down m run t
        else v02Down m run t

/-- Value pattern 2: `-\s*[\'"]?([a-zA-Z/.\s]+[a-zA-Z])[\'"]?\s*:`,
`re.IGNORECASE` (the classes already cover both cases). -/
def matchV02 (t : List Char) : Option (List Char × List Char) :=
  (chOne '-' t).bind fun t1 =>
  let t2 := wsStar t1
  let t3 := match t2 with
            | c :: r => if c = '\'' || c = '"' then r else t2
            | [] => t2
  let run := t3.takeWhile clsV02
  v02Down run.length run t3

/-- Lazy `[\s\S]*?` capture up to a stop position (zero-width lookahead:
the text from the stop position on is the continuation). -/
def lazyAnyUntil (stop : List Char → Bool) : Nat → List Char → List Char →
    Option (List Char × List Char)
  | 0, _, _ => none
  | n + 1, acc, t =>
      if stop t then some (acc.reverse, t)
      else
        match t with
        | c :: cs => lazyAnyUntil stop n (c :: acc) cs
        | [] => none

/-- Value pattern 3: `(?<=Valid values are:)[\s\S]*?(?=\.)` (no group: `findall`
returns the whole lazy run). -/
def matchV03 (t : List Char) : Option (List Char × List Char) :=
  (litAt false false (lc "Valid values are:") t).bind fun t1 =>
  lazyAnyUntil (fun s => startsWithL ['.'] s) (t1.length + 1) [] t1

/-- Value pattern 4: `(?<=Possible values are:)[\s\S]*?(?=\.)`. -/
def matchV04 (t : List Char) : Option (List Char × List Char) :=
  (litAt false false (lc "Possible values are:") t).bind fun t1 =>
  lazyAnyUntil (fun s => startsWithL ['.'] s) (t1.length + 1) [] t1

/-- The stop lookahead `(?=\.|\s+Required)` of value pattern 5 (`re.IGNORECASE`). -/
def v05Stop (s : List Char) : Bool :=
  startsWithL ['.'] s ||
  (match wsPlus s with
   | some r => (litAt true false (lc "Required") r).isSome
   | none => false)

/-- Value pattern 5: `(?<=Allowed values are)[\s\S]*?(?=\.|\s+Required)`,
`re.IGNORECASE`. -/
def matchV05 (t : List Char) : Option (List Char × List Char) :=
  (litAt true false (lc "Allowed values are") t).bind fun t1 =>
  lazyAnyUntil v05Stop (t1.length + 1) [] t1

/-- Lazy middle of value pattern 6, closing at the earliest `SCTP\b`. -/
def v06ContentF : Nat → List Char → List Char → Option (List Char × List Char)
  | 0, _, _ => none
  | n + 1, acc, t =>
      match litAt false false (lc "SCTP") t with
      | some r =>
          if boundaryOkAfter r then some (acc.reverse ++ lc "SCTP", r)
          else
            match t with
            | c :: cs => if c = '\n' then none else v06ContentF n (c :: acc) cs
            | [] => none
      | none =>
          match t with
          | c :: cs => if c = '\n' then none else v06ContentF n (c :: acc) cs
          | [] => none

/-- Value pattern 6 worker: `\b(UDP.*?SCTP)\b` `findall`, scanning with the
previous-character word flag for the leading `\b`. -/
def findV06F : Nat → Bool → List Char → List (List Char)
  | 0, _, _ => []
  | _ + 1, _, [] => []
  | n + 1, prevW, c :: cs =>
      match (if prevW then none
             else (litAt false false (lc "UDP") (c :: cs)).bind fun t1 =>
                  (v06ContentF (t1.length + 1) [] t1).map fun p =>
                    (lc "UDP" ++ p.1, p.2)) with
      | some (cap, rest) => cap :: findV06F n true rest
      | none => findV06F n (isWordPy c) cs

/-- Index of the last `'\n'` in a list, if any. -/
def lastNlPos (l : List Char) : Option Nat :=
  let k := (l.reverse.takeWhile (fun c => c ≠ '\n')).length
  if k = l.length then none else some (l.length - k - 1)

/-- Value pattern 7: `\n\s*-\s+(\w+)\s*\n` (the greedy trailing `\s*\n` ends
after the last newline of the whitespace run following the word). -/
def matchV07 (t : List Char) : Option (List Char × List Char) :=
  (chOne '\n' t).bind fun t1 =>
  (chOne '-' (wsStar t1)).bind fun t3 =>
  (wsPlus t3).bind fun t4 =>
  (clsPlus isWordPy t4).bind fun (g, t5) =>
  let run := t5.takeWhile isWsPy
  match lastNlPos run with
  | some k => some (g, t5.drop (k + 1))
  | none => none

/-- Value pattern 10: `(?<=The currently supported values are\s)([a-zA-Z\s,]+)(?=\.)`,
`re.IGNORECASE`. -/
def matchV10 (t : List Char) : Option (List Char × List Char) :=
  runToks1 [.litI "The currently supported values are", .wsOneT,
    .capCls clsAlphaWsComma, .la (fun c => c = '.')] t

/-- Value pattern 11: `(?<=Valid operators are\s)([A-Za-z\s,]+)(?=\.)`,
`re.IGNORECASE`. -/
def matchV11 (t : List Char) : Option (List Char × List Char) :=
  runToks1 [.litI "Valid operators are", .wsOneT,
    .capCls clsAlphaWsComma, .la (fun c => c = '.')] t

/-- Value pattern 13: `(?<=Acceptable values are:)([A-Za-z\s,]+)(?=\()`. -/
def matchV13 (t : List Char) : Option (List Char × List Char) :=
  runToks1 [.lit "Acceptable values are:",
    .capCls clsAlphaWsComma, .la (fun c => c = '(')] t

/-- Value pattern 14: `(?<=status of the condition, one of\s)([a-zA-Z\s,]+)(?=\.)`,
`re.IGNORECASE`. -/
def matchV14 (t : List Char) : Option (List Char × List Char) :=
  runToks1 [.litI "status of the condition, one of", .wsOneT,
    .capCls clsAlphaWsComma, .la (fun c => c = '.')] t

/-- Value pattern 15: `(?<=Type of job condition,\s)([a-zA-Z\s,]+)(?=\.)`. -/
def matchV15 (t : List Char) : Option (List Char × List Char) :=
  runToks1 [.lit "Type of job condition,", .wsOneT,
    .capCls clsAlphaWsComma, .la (fun c => c = '.')] t

/-- Value pattern 16: `(?<=status of the condition. Can be\s)([a-zA-Z\s,]+)(?=\.)`
(the inner dot is the unescaped metacharacter). -/
def matchV16 (t : List Char) : Option (List Char × List Char) :=
  runToks1 [.litDC "status of the condition. Can be", .wsOneT,
    .capCls clsAlphaWsComma, .la (fun c => c = '.')] t

/-- Value pattern 17: `(?<=Types include\s)([a-zA-Z\s,]+)(?=\.)`. -/
def matchV17 (t : List Char) : Option (List Char × List Char) :=
  runToks1 [.lit "Types include", .wsOneT,
    .capCls clsAlphaWsComma, .la (fun c => c = '.')] t

/-- Value pattern 18: `(?<=status of the condition \()([a-zA-Z\s,]+)(?=\))`. -/
def matchV18 (t : List Char) : Option (List Char × List Char) :=
  runToks1 [.lit "status of the condition (",
    .capCls clsAlphaWsComma, .la (fun c => c = ')')] t

/-- Value pattern 19: `(?<=Node address type, one of\s)([a-zA-Z\s,]+)(?=\.)`. -/
def matchV19 (t : List Char) : Option (List Char × List Char) :=
  runToks1 [.lit "Node address type, one of", .wsOneT,
    .capCls clsAlphaWsComma, .la (fun c => c = '.')] t

/-- Value pattern 20: `(?<=. One of\s)([a-zA-Z\s,]+)(?=\.)` (the leading dot
of the lookbehind is the unescaped metacharacter). -/
def matchV20 (t : List Char) : Option (List Char × List Char) :=
  runToks1 [.anyCh, .lit " One of", .wsOneT,
    .capCls clsAlphaWsComma, .la (fun c => c = '.')] t

/-- Value pattern 21: `(?<=Host Caching mode:\s)([a-zA-Z\s,]+)(?=\.)`. -/
def matchV21 (t : List Char) : Option (List Char × List Char) :=
  runToks1 [.lit "Host Caching mode:", .wsOneT,
    .capCls clsAlphaWsComma, .la (fun c => c = '.')] t

/-- Value pattern 22: `(?<=Supported values:\s)([a-zA-Z\s,]+)(?=\.)`. -/
def matchV22 (t : List Char) : Option (List Char × List Char) :=
  runToks1 [.lit "Supported values:", .wsOneT,
    .capCls clsAlphaWsComma, .la (fun c => c = '.')] t

/-- Value pattern 24: `(?<=a volume should be\s)([a-zA-Z\s,]+)(?=\.)`. -/
def matchV24 (t : List Char) : Option (List Char × List Char) :=
  runToks1 [.lit "a volume should be", .wsOneT,
    .capCls clsAlphaWsComma, .la (fun c => c = '.')] t

/-- Value pattern 26: `(?<=the metric type is\s)([a-zA-Z\s,]+)` (no lookahead). -/
def matchV26 (t : List Char) : Option (List Char × List Char) :=
  runToks1 [.lit "the metric type is", .wsOneT, .capCls clsAlphaWsComma] t

/-- Value pattern 27: `(?<=Valid policies are\s)([a-zA-Z\s,]+)(?=\.)`. -/
def matchV27 (t : List Char) : Option (List Char × List Char) :=
  runToks1 [.lit "Valid policies are", .wsOneT,
    .capCls clsAlphaWsComma, .la (fun c => c = '.')] t

/-- All matches of the `value_patterns` list, in the source's pattern order
(the word-alternation patterns 8, 9, 12, 23 and 25 use the boundary-aware
scanner). -/
def valuePatternsAll (d : List Char) : List (List Char) :=
  findAllD matchV01 d ++ findAllD matchV02 d ++ findAllD matchV03 d ++
  findAllD matchV04 d ++ findAllD matchV05 d ++ findV06F (d.length + 1) false d ++
  findAllD matchV07 d ++
  wordAltAll ["Localhost", "RuntimeDefault", "Unconfined"] d ++
  wordAltAll ["Retain", "Delete", "Recycle"] d ++
  findAllD matchV10 d ++ findAllD matchV11 d ++
  wordAltAll ["Gt", "Lt"] d ++
  findAllD matchV13 d ++ findAllD matchV14 d ++ findAllD matchV15 d ++
  findAllD matchV16 d ++ findAllD matchV17 d ++ findAllD matchV18 d ++
  findAllD matchV19 d ++ findAllD matchV20 d ++ findAllD matchV21 d ++
  findAllD matchV22 d ++
  wordAltAll ["Shared", "Dedicated", "Managed"] d ++
  findAllD matchV24 d ++
  wordAltAll ["NonIndexed", "Indexed"] d ++
  findAllD matchV26 d ++ findAllD matchV27 d

/-- One separator of the value-splitting pattern
`,\s*|\s+or\s+|\sor|or\s|\s+and\s+|and\s`, alternatives tried in order;
returns the text after the separator. -/
def sepAt (t : List Char) : Option (List Char) :=
  match (match t with | ',' :: r => some (wsStar r) | _ => none) with
  | some r => some r
  | none =>
  match (wsPlus t).bind (fun r => (litAt false false (lc "or") r).bind wsPlus) with
  | some r => some r
  | none =>
  match (wsOne t).bind (litAt false false (lc "or")) with
  | some r => some r
  | none =>
  match (litAt false false (lc "or") t).bind wsOne with
  | some r => some r
  | none =>
  match (wsPlus t).bind (fun r => (litAt false false (lc "and") r).bind wsPlus) with
  | some r => some r
  | none => (litAt false false (lc "and") t).bind wsOne

/-- Fuelled worker of `reSplit` (Python `re.split` on the separator pattern). -/
def reSplitF : Nat → List Char → List Char → List (List Char)
  | 0, acc, _ => [acc.reverse]
  | n + 1, acc, t =>
      match sepAt t with
      | some rest => acc.reverse :: reSplitF n [] rest
      | none =>
          match t with
          | [] => [acc.reverse]
          | c :: cs => reSplitF n (c :: acc) cs

/-- Python `re.split(r',\s*|\s+or\s+|\sor|or\s|\s+and\s+|and\s', m)`. -/
def reSplit (m : List Char) : List (List Char) :=
  reSplitF (m.length + 1) [] m

/-- The in-loop normalisation of one split value: strip, `*`→`estrella`,
quote removal, space/slash→underscore. -/
def sanitizeValueToken (v0 : List Char) : List Char :=
  let v := stripPyL v0
  let v := replaceAllL (lc "*") (lc "estrella") v
  let v := replaceAllL ['"'] [] v
  let v := replaceAllL ['\''] [] v
  let v := replaceAllL ['`'] [] v
  let v := replaceAllL [' '] ['_'] v
  replaceAllL ['/'] ['_'] v

/-- The structural-punctuation filter of `extract_values` (the Python set
literal also contains the multi-character string `'prefixed_keys'`, which the
`in` operator treats as a substring test). -/
def valueBad (v : String) : Bool :=
  containsSub "." v || containsSub "\x7b" v || containsSub "\x7d" v ||
  containsSub "[" v || containsSub "]" v || containsSub ";" v ||
  containsSub ":" v || containsSub "prefixed_keys" v

/-- The double loop of `extract_values` over pattern matches and their split
values, producing the raw (pre-`set`) value list with `{default}` markers. -/
def collectValues (defaultValue : Option String) (tokens : List (List Char)) :
    List String :=
  tokens.foldl (fun acc m =>
    (reSplit m).foldl (fun acc2 p =>
      let v := strOf (sanitizeValueToken p)
      if v ≠ "" && v.length ≤ 24 && !valueBad v then
        if v.length ≥ 20 && containsSub "_" v then acc2
        else if defaultValue = some v then acc2 ++ [v ++ " \x7bdefault\x7d"]
        else acc2 ++ [v]
      else acc2) acc) []

/-- The class `[\w\s\.\-"\']` of the first two default-value patterns. -/
def clsD1 (c : Char) : Bool :=
  isWordPy c || isWsPy c || c = '.' || c = '-' || c = '"' || c = '\''

/-- Lazy `cls+?` up to a `(?=\.)` lookahead. -/
def lazyClsUntilDot (cls : Char → Bool) : Nat → List Char → List Char →
    Option (List Char × List Char)
  | 0, _, _ => none
  | n + 1, acc, t =>
      match t with
      | c :: cs =>
          if acc ≠ [] && c = '.' then some (acc.reverse, t)
          else if cls c then lazyClsUntilDot cls n (c :: acc) cs
          else none
      | [] => none

/-- Default pattern 1: `(?<=defaults to\s)(["\']?[\w\s\.\-"\']+?)(?=\.)`,
`re.IGNORECASE` (the optional quote is part of the capture; the quoted
parse is preferred and backtracked, as in `re`). -/
def matchD1 (t : List Char) : Option (List Char × List Char) :=
  (litAt true false (lc "defaults to") t).bind fun t1 =>
  (wsOne t1).bind fun t2 =>
  match t2 with
  | q :: rest =>
      if quoteCh q then
        match lazyClsUntilDot clsD1 (rest.length + 1) [] rest with
        | some (g, r) => some (q :: g, r)
        | none => lazyClsUntilDot clsD1 (t2.length + 1) [] t2
      else lazyClsUntilDot clsD1 (t2.length + 1) [] t2
  | [] => none

/-- Default pattern 2: `(?<=Defaults to\s)(["\']?[\w\s\.\-"\']+["\']?)`
(greedy, no lookahead; the optional quotes lie inside the class, so the
capture is the maximal class run). -/
def matchD2 (t : List Char) : Option (List Char × List Char) :=
  (litAt false false (lc "Defaults to") t).bind fun t1 =>
  (wsOne t1).bind fun t2 =>
  clsPlus clsD1 t2

/-- Lazy `(.*?)` up to a closing quote. -/
def lazyAnyUntilQuote : Nat → List Char → List Char → Option (List Char × List Char)
  | 0, _, _ => none
  | n + 1, acc, t =>
      match t with
      | c :: cs =>
          if quoteCh c then some (acc.reverse, cs)
          else if c = '\n' then none
          else lazyAnyUntilQuote n (c :: acc) cs
      | [] => none

/-- Default pattern 3: `Implicitly inferred to be\s["\'](.*?)["\']`,
`re.IGNORECASE`. -/
def matchD3 (t : List Char) : Option (List Char × List Char) :=
  (litAt true false (lc "Implicitly inferred to be") t).bind fun t1 =>
  (wsOne t1).bind fun t2 =>
  match t2 with
  | q :: rest => if quoteCh q then lazyAnyUntilQuote (rest.length + 1) [] rest else none
  | [] => none

/-- Lazy `(.*?)` up to a closing quote that is followed by a dot. -/
def lazyAnyUntilQuoteDot : Nat → List Char → List Char → Option (List Char × List Char)
  | 0, _, _ => none
  | n + 1, acc, t =>
      match t with
      | c :: cs =>
          if quoteCh c && (match cs with | d :: _ => d = '.' | [] => false) then
            some (acc.reverse, cs)
          else if c = '\n' then none
          else lazyAnyUntilQuoteDot n (c :: acc) cs
      | [] => none

/-- Default pattern 4: `default to use\s["\'](.*?)["\'](?=\.)`, `re.IGNORECASE`. -/
def matchD4 (t : List Char) : Option (List Char × List Char) :=
  (litAt true false (lc "default to use") t).bind fun t1 =>
  (wsOne t1).bind fun t2 =>
  match t2 with
  | q :: rest => if quoteCh q then lazyAnyUntilQuoteDot (rest.length + 1) [] rest else none
  | [] => none

/-- Lazy `(.*?)` up to `["\']?(?=\.)`: stop at a quote followed by a dot,
or at a dot. -/
def lazyAnyUntilOptQuoteDot : Nat → List Char → List Char →
    Option (List Char × List Char)
  | 0, _, _ => none
  | n + 1, acc, t =>
      match t with
      | c :: cs =>
          if quoteCh c && (match cs with | d :: _ => d = '.' | [] => false) then
            some (acc.reverse, cs)
          else if c = '.' then some (acc.reverse, t)
          else if c = '\n' then none
          else lazyAnyUntilOptQuoteDot n (c :: acc) cs
      | [] => none

/-- Default pattern 5: `\. Default is\s["\']?(.*?)["\']?(?=\.)`,
`re.IGNORECASE` (the leading dot is escaped, hence literal). -/
def matchD5 (t : List Char) : Option (List Char × List Char) :=
  (litAt true false (lc ". Default is") t).bind fun t1 =>
  (wsOne t1).bind fun t2 =>
  match t2 with
  | q :: rest =>
      if quoteCh q then
        match lazyAnyUntilOptQuoteDot (rest.length + 1) [] rest with
        | some r => some r
        | none => lazyAnyUntilOptQuoteDot (t2.length + 1) [] t2
      else lazyAnyUntilOptQuoteDot (t2.length + 1) [] t2
  | [] => none

/-! ## `convert01.py` — transcribed functions of `SchemaProcessor` -/

/-- The trigger list `patterns_default_values` of
`patterns_process_enum_values_default` (checked against the lowered text). -/
def patternsDefaultValues : List String :=
  ["defaults to", ". implicitly inferred to be", "the currently supported reasons are",
   ". default is"]

/-- `patterns_process_enum_values_default`: the per-match normalisation keeps
the part before the first dot, strips, unquotes and length-caps it; the last
surviving match wins. -/
def patternsProcessEnumValuesDefault (description : String) : Option String :=
  if !(patternsDefaultValues.any fun k => containsSub k (lowerStr description)) then none
  else
    let d := description.data
    let allMatches := findAllD matchD1 d ++ findAllD matchD2 d ++ findAllD matchD3 d ++
      findAllD matchD4 d ++ findAllD matchD5 d
    let defaultValue := allMatches.foldl (fun acc m =>
      let firstPart := m.takeWhile (fun c => c ≠ '.')
      let v := stripPyL firstPart
      let v := replaceAllL ['"'] [] v
      let v := replaceAllL ['\''] [] v
      let v := replaceAllL ['.'] [] v
      let v := stripPyL v
      let v := if v = ['*'] then lc "estrella" else v
      if v ≠ [] && v.length ≤ 50 then strOf v else acc) ""
    if defaultValue = "" then none else some defaultValue

/-- The keyword list `palabras_patrones_minus` of `extract_values`
(matched against the lowered description). -/
def palabrasPatronesMinus : List String :=
  ["values are", "following states", ". must be", "implicitly inferred to be",
   "the currently supported reasons are", ". can be",
   "it can be in any of following states", "valid options are", "a value of `",
   "the supported types are", "valid operators are", "status of the condition,",
   "status of the condition.", "type of the condition.", "status of the condition (",
   "node address type", "should be one of", "will be one of",
   "means that requests that", "only valid values", "a volume should be",
   "the metric type is", "valid policies are"]

/-- The keyword list `palabras_patrones_may` of `extract_values`
(matched against the original description). -/
def palabrasPatronesMay : List String :=
  ["Supports", "Type of job condition", "Status of the condition for",
   "Type of condition", ". One of", "Host Caching mode", "This may be set to",
   "Supported values:", "completions are tracked. It can be", "Services can be",
   "this API group are"]

/-- `extract_values`: the returned value collection is a Python `set`;
it is modelled as the first-occurrence-deduplicated list (membership and
cardinality faithful; iteration order of the CPython set is unspecified). -/
def extractValues (description : String) : Option (List String) :=
  if !(palabrasPatronesMinus.any fun k => containsSub k (lowerStr description)) &&
     !(palabrasPatronesMay.any fun k => containsSub k description) then none
  else
    let defaultValue := patternsProcessEnumValuesDefault description
    let rawValues := collectValues defaultValue (valuePatternsAll description.data)
    let values := dedupFirst rawValues
    let caseNotNone := ["NodePort", "ClusterIP \x7bdefault\x7d", "None",
      "LoadBalancer", "ExternalName"]
    let caseNotPolicies := ["IfHealthyBudget", "AlwaysAllow", "Ready", "True", "Running"]
    if values.isEmpty || values.length = 1 then none
    else if setEqL caseNotNone values then
      some (values.filter (fun v => v ≠ "None"))
    else if setEqL caseNotPolicies values then
      some (caseNotPolicies.filter
        (fun v => !(["Ready", "True", "Running"].contains v)))
    else some values

/-- `sanitize_name`. -/
def sanitizeName (name : String) : String :=
  replacePy (replacePy (replacePy name "-" "_") "." "_") "$" ""

/-- `sanitize_type_data`: maps a raw schema kind to the reduced type set and
updates the `is_cardinality` flag (an instance attribute in the source). -/
def sanitizeTypeData (typeData : String) (isCard : Bool) : String × Bool :=
  if typeData = "array" then ("Boolean", true)
  else if typeData = "Object" || typeData = "object" then ("Boolean", true)
  else if typeData = "number" || typeData = "Number" then ("Integer", isCard)
  else if typeData = "Boolean" then ("", isCard)
  else (typeData, isCard)

/-- `is_valid_description(feature_name, description)`: rejects a `description`
shorter than 10 characters and a repeated `feature_name:description` key
(`self.seen_descriptions`), threading the seen-set. -/
def isValidDescription (seen : List String) (featureName description : String) :
    Bool × List String :=
  if description.length < 10 then (false, seen)
  else
    let key := featureName ++ ":" ++ description
    if seen.contains key then (false, seen)
    else (true, seen ++ [key])

/-- `is_required_based_on_description`. -/
def isRequiredBasedOnDescription (description : String) : Bool :=
  endsWithPy "Required." (stripPy description)

/-- Occurrence test of a literal with optional `re.IGNORECASE` and
unescaped-dot metacharacters (fuelled substring scan). -/
def containsPatF (icase dots : Bool) (pat : List Char) : Nat → List Char → Bool
  | 0, _ => false
  | _ + 1, [] => (litAt icase dots pat []).isSome
  | n + 1, c :: cs => (litAt icase dots pat (c :: cs)).isSome || containsPatF icase dots pat n cs

/-- The alternatives of the `restrictions` classification pattern
(`self.patterns['restrictions']`, `re.IGNORECASE`); the flag marks the one
alternative whose dots are unescaped metacharacters (the two escaped-dot
alternatives carry a literal dot in the string). -/
def restrictionsTriggerList : List (String × Bool) :=
  [("If the operator is", false), ("template.spec.restartPolicy", true),
   ("conditions may not be", false), ("Details about a waiting", false),
   ("TCPSocket is NOT", false), ("must be between", false),
   ("Note that this field cannot be set when", false), ("valid port number", false),
   ("must be in the range", false), ("must be greater than", false),
   ("are mutually exclusive properties", false), ("Must be set if type is", false),
   ("field MUST be empty if", false), ("must be non-empty if and only if", false),
   ("only if type", false), (". Required when", false), ("required when scope", false),
   (". At least one of", false), ("a least one of", false), ("Exactly one of", false),
   ("resource access request", false), ("datasetUUID is", false),
   ("succeededIndexes specifies", false),
   ("Represents the requirement on the container", false),
   ("ResourceClaim object in the same namespace as this pod", false),
   ("indicates which one of", false), ("may be non-empty only if", false),
   ("Minimum value is", false), ("Value must be non-negative", false),
   ("minimum valid value for", false), ("in the range 1-", false)]

/-- `self.patterns['restrictions'].search(description)` as a Boolean. -/
def restrictionsMatch (d : String) : Bool :=
  restrictionsTriggerList.any fun p =>
    containsPatF true p.2 p.1.data (d.data.length + 1) d.data

/-- The `values` and `dependencies` classification patterns are `^\b$`, which
matches no string: `\b` at position 0 requires a word character adjacent to
the start of the match, and `$` forces the match to be empty, so no adjacent
word character can belong to it. -/
def emptyBoundaryMatch (_d : String) : Bool := false

/-- Python `s.split(sep)[0]`: the text before the first occurrence of `sep`
(the whole text if `sep` is absent). -/
def takeUntilSubF (sep : List Char) : Nat → List Char → List Char → List Char
  | 0, acc, _ => acc.reverse
  | n + 1, acc, t =>
      if startsWithL sep t then acc.reverse
      else
        match t with
        | [] => acc.reverse
        | c :: cs => takeUntilSubF sep n (c :: acc) cs

/-- Python `s.split(sep)[0]` on `String`. -/
def splitBeforeSub (sep s : String) : String :=
  ⟨takeUntilSubF sep.data (s.data.length + 1) [] s.data⟩

/-- The description-sanitisation chain inlined throughout `convert01.py`
(`.replace('\n','').replace('`','').replace('´','').replace("'","_")
.replace('{','').replace('}','').replace('"','').replace('\\','_')
.replace('.','').replace('//','_')` followed by the ASCII filter). -/
def cleanedDescr (description : String) : String :=
  let s := replacePy description "\n" ""
  let s := replacePy s "`" ""
  let s := replacePy s "´" ""
  let s := replacePy s "\x27" "_"
  let s := replacePy s "\x7b" ""
  let s := replacePy s "\x7d" ""
  let s := replacePy s "\"" ""
  let s := replacePy s "\\" "_"
  let s := replacePy s "." ""
  let s := replacePy s "//" "_"
  ⟨s.data.filter (fun c => c.toNat < 128)⟩

/-- The global mutable state of one `SchemaProcessor` instance (the fields
read or written by `parse_properties` and its helpers). -/
structure GState where
  processed : List String
  seenDescriptions : List String
  valuesRecs : List DescriptionRecord
  restrictionsRecs : List DescriptionRecord
  dependenciesRecs : List DescriptionRecord
  featureAuxOriginalType : String
  isCardinality : Bool
  isDeprecated : Bool
deriving DecidableEq, Repr

/-- Fresh `SchemaProcessor` state (`__init__`). -/
def GState.init : GState :=
  ⟨[], [], [], [], [], "", false, false⟩

/-- The per-call local variables of `parse_properties` that survive from one
property iteration to the next (`abstract_bool`, initialised `False` at
function entry, and `cleaned_description`, unassigned before its first write;
the source never reads it before a write, so `""` is an inert placeholder). -/
structure LState where
  abstractBool : Bool
  cleanedDescription : String
deriving DecidableEq, Repr

/-- Per-call initial local state. -/
def LState.init : LState := ⟨false, ""⟩

/-- Python set-insertion (`set.add`) on the list model. -/
def setAdd (l : List String) (x : String) : List String :=
  if l.contains x then l else l ++ [x]

/-- `categorize_description(description, feature_name, type_data)`.  Note the
swapped argument order in the source's call
`self.is_valid_description(description, feature_name)` relative to the
signature `is_valid_description(self, feature_name, description)`: the
10-character minimum is therefore applied to `feature_name` and the seen-key
is `description + ":" + feature_name`. -/
def categorizeDescription (description featureName typeData : String) (g : GState) :
    Bool × GState :=
  let (ok, seen) := isValidDescription g.seenDescriptions description featureName
  let g := { g with seenDescriptions := seen }
  if !ok then (false, g)
  else
    let typeData := if typeData = "" then "Boolean" else typeData
    let featureNameDescriptions :=
      if containsSub "cardinality" featureName then splitBeforeSub " cardinality" featureName
      else if containsSub "\x7b" featureName then splitBeforeSub " \x7b" featureName
      else featureName
    let entry : DescriptionRecord := ⟨featureNameDescriptions, description, typeData⟩
    if emptyBoundaryMatch description then
      (true, { g with valuesRecs := g.valuesRecs ++ [entry] })
    else if restrictionsMatch description then
      (true, { g with restrictionsRecs := g.restrictionsRecs ++ [entry] })
    else if emptyBoundaryMatch description then
      (true, { g with dependenciesRecs := g.dependenciesRecs ++ [entry] })
    else (false, g)

/-- The `boolean_keywords` list of `SchemaProcessor.__init__`. -/
def booleanKeywords : List String :=
  ["AppArmorProfile_localhostProfile", "appArmorProfile_localhostProfile",
   "seccompProfile_localhostProfile", "SeccompProfile_localhostProfile",
   "IngressClassList_items_spec_parameters_namespace",
   "IngressClassParametersReference_namespace", "IngressClassSpec_parameters_namespace",
   "IngressClass_spec_parameters_namespace", "_tolerations_value", "_Toleration_value",
   "_clientConfig_url", "_WebhookClientConfig_url", "_succeededIndexes",
   "_succeededCount", "source_resourceClaimName", "_ClaimSource_resourceClaimName",
   "_resourceClaimTemplateName", "_datasetUUID", "_datasetName"]

/-- The `special_features_config` list of `SchemaProcessor.__init__`. -/
def specialFeaturesConfig : List String :=
  ["_template_spec_", "_Pod_spec_", "_PodList_items_spec_", "_core_v1_PodSpec_",
   "_PodTemplateSpec_spec_", "_v1_PodSecurityContext_",
   "_v1_Container_securityContext_", "_v1_EphemeralContainer_securityContext_",
   "_v1_SecurityContext_"]

/-- The two `boolean_keywords_regex` patterns `.*_paramRef_name$` and
`.*_ParamRef_name$` as suffix tests (the suffixes are disjoint, so the
source's sequential loop over both patterns performs at most one override). -/
def booleanKeywordsRegexMatch (fullName : String) : Bool :=
  endsWithPy "_paramRef_name" fullName || endsWithPy "_ParamRef_name" fullName

/-- `update_type_data(full_name, feature_type_data, description)`, returning
the updated type, the `abstract_bool` flag, and the state with
`feature_aux_original_type` updated. -/
def updateTypeData (fullName featureTypeData description : String) (g : GState) :
    (String × Bool) × GState :=
  let g := { g with featureAuxOriginalType := "" }
  let (ftd, abstractBool, g) :=
    if booleanKeywords.any (fun k => containsSub k fullName) &&
       !endsWithPy "nameStr" fullName && !endsWithPy "valueInt" fullName then
      ("Boolean", true, { g with featureAuxOriginalType := featureTypeData })
    else (featureTypeData, false, g)
  let (ftd, abstractBool, g) :=
    if specialFeaturesConfig.any (fun k => containsSub k fullName) &&
       containsSub "Note that this field cannot be set when" description &&
       !endsWithPy "nameStr" fullName && !endsWithPy "valueInt" fullName then
      let aux := ftd
      let ab := if aux ≠ "boolean" && aux ≠ "Boolean" && aux ≠ "" then true else abstractBool
      ("Boolean", ab, { g with featureAuxOriginalType := aux })
    else (ftd, abstractBool, g)
  if booleanKeywordsRegexMatch fullName &&
     !endsWithPy "nameStr" fullName && !endsWithPy "valueInt" fullName then
    (("Boolean", true), { g with featureAuxOriginalType := ftd })
  else ((ftd, abstractBool), g)

/-- `process_enum_defaultInte` trigger list (`patterns_default_values_numbers`,
checked against the lowered description; the capitalised entry
`Default is false` can therefore never fire, as in the source). -/
def patternsDefaultValuesNumbers : List String :=
  ["defaults to", "default value is", "default to", "default false",
   "Default is false", "is \"false", "is \"true"]

/-- `(?<=Defaults to\s)(\d+)(?=\D|$)`, `re.IGNORECASE` (the lookahead always
holds after a maximal digit run). -/
def matchE1 (t : List Char) : Option (List Char × List Char) :=
  runToks1 [.litI "Defaults to", .wsOneT, .capCls isDigitAscii] t

/-- `(?<=Default value is\s)(\d+)(?=\D|$)`, `re.IGNORECASE`. -/
def matchE2 (t : List Char) : Option (List Char × List Char) :=
  runToks1 [.litI "Default value is", .wsOneT, .capCls isDigitAscii] t

/-- `(?<=Default to\s)(\d+)(?=\D|$)`. -/
def matchE3 (t : List Char) : Option (List Char × List Char) :=
  runToks1 [.lit "Default to", .wsOneT, .capCls isDigitAscii] t

/-- `(?<=Default to\s)([\w\s\.])(?=\.)` (a single-character capture). -/
def matchE4 (t : List Char) : Option (List Char × List Char) :=
  runToks1 [.lit "Default to", .wsOneT,
    .capOne (fun c => isWordPy c || isWsPy c || c = '.'), .la (fun c => c = '.')] t

/-- `Default is\s+\\?"(true|false)\\?"`. -/
def matchE5 (t : List Char) : Option (List Char × List Char) :=
  runToks1 [.lit "Default is", .wsPlusT, .chOpt '\\', .ch '"',
    .capAlt ["true", "false"], .chOpt '\\', .ch '"'] t

/-! ## Schema and feature-tree data model -/

/-- A JSON-schema node, restricted to the keys read by `parse_properties`.
`properties?` and `oneOf?` are `Option`s because the source tests key
presence (`'properties' in ...`, `'oneOf' in ...`); `items?` and `addProps?`
(`additionalProperties`) are the raw sub-objects; `description`, `enum` and
`required` use the source's `.get` defaults, under which an absent key and an
empty value are indistinguishable. -/
inductive Schema where
  | mk (type? : Option String) (description : String) (enum : List String)
      (ref? : Option String) (items? : Option Schema) (addProps? : Option Schema)
      (properties? : Option (List (String × Schema))) (required : List String)
      (oneOf? : Option (List Schema))

/-- The `type` key. -/
def Schema.type? : Schema → Option String
  | .mk t _ _ _ _ _ _ _ _ => t

/-- The `description` key (`.get('description', '')`). -/
def Schema.description : Schema → String
  | .mk _ d _ _ _ _ _ _ _ => d

/-- The `enum` key. -/
def Schema.enum : Schema → List String
  | .mk _ _ e _ _ _ _ _ _ => e

/-- The `$ref` key. -/
def Schema.ref? : Schema → Option String
  | .mk _ _ _ r _ _ _ _ _ => r

/-- The `items` key. -/
def Schema.items? : Schema → Option Schema
  | .mk _ _ _ _ i _ _ _ _ => i

/-- The `additionalProperties` key. -/
def Schema.addProps? : Schema → Option Schema
  | .mk _ _ _ _ _ a _ _ _ => a

/-- The `properties` key. -/
def Schema.properties? : Schema → Option (List (String × Schema))
  | .mk _ _ _ _ _ _ p _ _ => p

/-- The `required` key (`.get('required', [])`). -/
def Schema.required : Schema → List String
  | .mk _ _ _ _ _ _ _ r _ => r

/-- The `oneOf` key. -/
def Schema.oneOf? : Schema → Option (List Schema)
  | .mk _ _ _ _ _ _ _ _ o => o

/-- A leaf schema node carrying only a `type` and a `description`. -/
def Schema.leaf (type? : Option String) (description : String) : Schema :=
  .mk type? description [] none none none none [] none

/-- A schema node carrying only a `$ref`. -/
def Schema.refNode (ref : String) : Schema :=
  .mk none "" [] (some ref) none none none [] none

/-- One node of the generated feature tree (the `feature` dict of the
source: `name`, `type`, `description`, `sub_features`, `type_data`). -/
inductive Feature where
  | mk (name : String) (ftype : String) (description : String)
      (subFeatures : List Feature) (typeData : String)

/-- The `name` entry. -/
def Feature.name : Feature → String
  | .mk nm _ _ _ _ => nm

/-- The `type` entry (`mandatory` / `optional` / `alternative`). -/
def Feature.ftype : Feature → String
  | .mk _ ty _ _ _ => ty

/-- The `description` entry. -/
def Feature.description : Feature → String
  | .mk _ _ d _ _ => d

/-- The `sub_features` entry. -/
def Feature.subFeatures : Feature → List Feature
  | .mk _ _ _ s _ => s

/-- The `type_data` entry. -/
def Feature.typeData : Feature → String
  | .mk _ _ _ _ td => td

/-- Strip a literal prefix of a character list. -/
def dropPreL : List Char → List Char → Option (List Char)
  | [], t => some t
  | _ :: _, [] => none
  | p :: ps, c :: cs => if p = c then dropPreL ps cs else none

/-- `resolve_reference(ref)` for pointers of the shape `#/definitions/Name`
over the definitions mapping: `ref.strip('#/').split('/')` yields
`["definitions", Name]` and the two `.get` steps reduce to a lookup of
`Name`.  Memoisation (`self.resolved_references`) caches a pure function of
an immutable document and is dropped. -/
def resolveReference (defs : List (String × Schema)) (ref : String) : Option Schema :=
  match dropPreL (lc "#/definitions/") ref.data with
  | some nameL =>
      if nameL ≠ [] && !nameL.contains '/' then
        (defs.find? (fun p => p.1 = strOf nameL)).map Prod.snd
      else none
  | none => none

/-- One leading `\s*\{.*?\}` group at the head of the text, returning the
continuation: a whitespace run, `'{'`, the lazy non-newline content up to the
first `'}'`. -/
def matchBraceGroup (t : List Char) : Option (List Char) :=
  let ws := t.takeWhile isWsPy
  let t1 := t.drop ws.length
  match t1 with
  | '\x7b' :: rest =>
      let content := rest.takeWhile (fun c => c ≠ '\x7d' && c ≠ '\n')
      match rest.drop content.length with
      | '\x7d' :: tail => some tail
      | _ => none
  | _ => none

/-- Fuelled worker of `stripBracesL`. -/
def stripBracesF : Nat → List Char → List Char → List Char
  | 0, acc, t => acc.reverse ++ t
  | n + 1, acc, t =>
      match matchBraceGroup t with
      | some rest => stripBracesF n acc rest
      | none =>
          match t with
          | [] => acc.reverse
          | c :: cs => stripBracesF n (c :: acc) cs

/-- `re.sub(r'\s*\{.*?\}', '', name)`: removes every brace-annotation group
(leftmost, non-overlapping). -/
def stripBracesL (l : List Char) : List Char :=
  stripBracesF (l.length + 1) [] l

/-- `process_oneOf(oneOf, full_name, type_feature)`: the per-option
`sanitize_type_data` calls mutate `is_cardinality`, so the state is
threaded. -/
def processOneOf (oneOf : List Schema) (fullName typeFeature : String) (g : GState) :
    Feature × GState :=
  let (subs, g) := oneOf.foldl (fun (acc : List Feature × GState) option =>
      match option.type? with
      | some ty =>
          let optionTypeData := pyCapitalize ty
          let sanitized := replacePy fullName " cardinality [1..*]" ""
          let sanitized :=
            if containsSub " \x7bdefault " sanitized then
              strOf (stripBracesL sanitized.data)
            else sanitized
          let auxDescr := "Sub-feature added of type " ++ optionTypeData
          let (td, card) := sanitizeTypeData optionTypeData acc.2.isCardinality
          (acc.1 ++ [Feature.mk
              (sanitized ++ "_as" ++ optionTypeData ++ " \x7bdoc \x27" ++ auxDescr ++ "\x27\x7d")
              "alternative" auxDescr [] td],
           { acc.2 with isCardinality := card })
      | none => acc) ([], g)
  (Feature.mk fullName typeFeature ("Feature based on oneOf in " ++ fullName)
    subs "Boolean", g)

/-- `process_enum_defaultInte(property, full_name, description)`: embeds a
detected default (an `enum` head, a matched numeric/boolean default pattern,
or a spelled-out true/false phrase) into the feature name, returning the
possibly-rewritten name and the `default_bool` flag.  The source's later
patterns overwrite `default_full_name`, so the last firing case wins. -/
def processEnumDefaultInte (details : Schema) (fullName description : String) :
    String × Bool :=
  if details.enum ≠ [] then
    let cleaned := cleanedDescr description
    let defaultValue := (details.enum.head?).getD ""
    (fullName ++ " \x7bdefault \x27" ++ defaultValue ++ "\x27, doc \x27" ++ cleaned ++ "\x27\x7d",
     true)
  else if patternsDefaultValuesNumbers.any (fun k => containsSub k (lowerStr description)) then
    let cleaned := cleanedDescr description
    let dfn1 := [matchE1, matchE2, matchE3, matchE4].foldl (fun acc m =>
      match searchD m description.data with
      | some g =>
          let dflt := strOf g
          let dflt := if dflt = "0644" then "644" else dflt
          some (fullName ++ " \x7bdefault " ++ dflt ++ ", doc \x27" ++ cleaned ++ "\x27\x7d")
      | none => acc) none
    let dfn2 :=
      match searchD matchE5 description.data with
      | some g =>
          some (fullName ++ " \x7bdefault " ++ strOf g ++ ", doc \x27" ++ cleaned ++ "\x27\x7d")
      | none => dfn1
    let dfn3 :=
      if containsSub "Default to false" description ||
         containsSub "defaults to false" (lowerStr description) ||
         containsSub "default false" (lowerStr description) ||
         containsSub "Default is false" description then
        if containsSub "defaults to false" (lowerStr description) &&
           containsSub "deprecated." (lowerStr description) then
          some (fullName ++ " \x7bdefault false, deprecated, doc \x27" ++ cleaned ++ "\x27\x7d")
        else some (fullName ++ " \x7bdefault false, doc \x27" ++ cleaned ++ "\x27\x7d")
      else if containsSub "Default to true" description ||
          containsSub "defaults to true" (lowerStr description) then
        some (fullName ++ " \x7bdefault true, doc \x27" ++ cleaned ++ "\x27\x7d")
      else dfn2
    match dfn3 with
    | some n => (n, true)
    | none => (fullName, false)
  else (fullName, false)

/-- The synthetic `_isEmpty` child of `emptyDir`-suffixed features. -/
def emptyDirFeature (fullName : String) : Feature :=
  Feature.mk
    (fullName ++ "_isEmpty \x7bdoc \x27Added option to select when emptyDir is empty declared \x7b\x7d \x27\x7d")
    "optional"
    "\x7bdoc \x27Added option to select when emptyDir is empty declared \x7b\x7d \x27\x7d"
    [] ""

/-- The synthetic `_isNull` child of `creationTimestamp`-suffixed features. -/
def isNullFeature (fullName : String) : Feature :=
  Feature.mk
    (fullName ++ "_isNull \x7bdoc \x27Added option to select when creationTimestamp is empty declared: null\x27\x7d")
    "optional"
    "\x7bdoc \x27Added option to select when creationTimestamp is empty declared: null\x27\x7d"
    [] ""

/-- The synthetic `_isEmpty02` child of `fieldsV1`-suffixed features. -/
def isEmpty02Feature (fullName : String) : Feature :=
  Feature.mk
    (fullName ++ "_isEmpty02 \x7bdoc \x27Added option to select when fieldsV1 is empty declared: \x7b\x7d\x27\x7d")
    "optional"
    "\x7bdoc \x27Added option to select when fieldsV1 is empty declared: \x7b\x7d\x27\x7d"
    [] ""

/-- The doc text of the items-of-strings synthetic leaf. -/
def auxDescrStringItems : String :=
  "Added String mandatory for complete structure Array in the model The modified is not in json but provide represents, Array of Strings: StringValue"

/-- The doc text of the items-of-integers synthetic leaf. -/
def auxDescrIntegerItems : String :=
  "Added Integer mandatory for complete structure Array in the model The modified is not in json but provide represents, Array of Integers: IntegerValue"

/-- The doc text of the additionalProperties-items synthetic leaf. -/
def auxDescrStringAPItems : String :=
  "Added String mandatory for complete structure Array in the model into AdditionalProperties array Array of Strings: StringValue"

/-- The doc text of the additionalProperties-of-strings synthetic leaf. -/
def auxDescrStringProperties : String :=
  "Added String mandatory for complete structure Object in the model The modified is not in json but provide represents, Array of Strings: StringValue"

/-- The doc text of the key/value map synthetic leaves. -/
def auxDescrMapsProperties : String :=
  "Added Map for complete structure Object in the model The modified is not in json but provide represents, Array of pairs key, value: ValueMap, KeyMap"

/-- The map-phrase list `list_local_features_maps`. -/
def listLocalFeaturesMaps : List String :=
  ["Map of", "matchLabels is a map of", "label keys and values"]

/-- The values of the per-property pre-processing of `parse_properties`
(lines up to the `extract_values` call: naming, requiredness, type
sanitisation, default embedding, cardinality annotation, classification,
doc/deprecated/abstract annotation, the brace strip and value extraction). -/
structure PreOut where
  fullName : String
  featName : String
  featType : String
  descr : String
  featTypeData : String
  extracted : Option (List String)
  boolAddedValue : Bool
  isReqByDescr : Bool
  g : GState
  l : LState

/-- The per-property pre-processing stage of `parse_properties` (everything
between the qualified-name computation and the `$ref`/`items`/
`additionalProperties` dispatch). -/
def preStage (prop : String) (details : Schema) (currentRequired : List String)
    (currentParent : String) (g0 : GState) (l0 : LState) : PreOut :=
  let sanitizedName := sanitizeName prop
  let fullName := if currentParent ≠ "" then currentParent ++ "_" ++ sanitizedName
                  else sanitizedName
  let g := { g0 with isCardinality := false, isDeprecated := false }
  let descr := details.description
  let isReqByDescr := isRequiredBasedOnDescription descr
  let featType := if currentRequired.contains prop || isReqByDescr then "mandatory"
                  else "optional"
  let (ftd1, card1) := sanitizeTypeData (details.type?.getD "Boolean") g.isCardinality
  let g := { g with isCardinality := card1 }
  let (fullName, defaultBool) := processEnumDefaultInte details fullName descr
  let (fullName, g) :=
    if g.isCardinality && containsSub "cardinality" fullName then
      let f := replacePy fullName " cardinality [1..*]" ""
      if containsSub "unstructured key value map" descr then
        (f ++ " cardinality [0..*]", g)
      else (f ++ " cardinality [1..*]", g)
    else if g.isCardinality then
      if containsSub "unstructured key value map" descr then
        (fullName ++ " cardinality [0..*]", g)
      else (fullName ++ " cardinality [1..*]", g)
    else
      (replacePy (replacePy fullName " cardinality [1..*]" "") " cardinality [0..*]" "",
       { g with isCardinality := false })
  let (fullName, ftd2, l, g) :=
    if descr ≠ "" then
      let ((ftd2, abs2), g) := updateTypeData fullName ftd1 descr g
      let (_, g) := categorizeDescription descr fullName ftd2 g
      let cleaned := cleanedDescr descr
      let g := if containsSub "DEPRECATED:" cleaned ||
                  containsSub "deprecated." (lowerStr cleaned) ||
                  containsSub "This field is deprecated," cleaned ||
                  containsSub "deprecated field" cleaned
               then { g with isDeprecated := true } else g
      let (fullName, g) :=
        if !defaultBool && !abs2 && !g.isDeprecated then
          (fullName ++ " \x7bdoc \x27" ++ cleaned ++ "\x27\x7d",
           { g with isDeprecated := false })
        else if g.isDeprecated && !defaultBool then
          (fullName ++ " \x7bdeprecated, doc \x27" ++ cleaned ++ "\x27\x7d",
           { g with isDeprecated := false })
        else (fullName, g)
      (fullName, ftd2, (⟨abs2, cleaned⟩ : LState), g)
    else (fullName, ftd1, l0, g)
  let featName := if !l.abstractBool then fullName
                  else fullName ++ " \x7babstract, doc \x27" ++ l.cleanedDescription ++ "\x27\x7d"
  let featTypeData := if ftd2 = "Boolean" then "" else ftd2
  let fullName := strOf (stripBracesL fullName.data)
  let extracted := extractValues descr
  { fullName := fullName, featName := featName, featType := featType, descr := descr,
    featTypeData := featTypeData, extracted := extracted,
    boolAddedValue := extracted.isSome, isReqByDescr := isReqByDescr, g := g, l := l }

/-- The value-subfeature / boolean-override stage of `parse_properties`
(the `if extracted_values: ... else: ...` block), returning the appended
sub-features, the possibly-rewritten `full_name` and the feature's
`type_data`. -/
def valueStage (pre : PreOut) (subs : List Feature) (fullName : String) (g : GState) :
    List Feature × String × String :=
  match pre.extracted with
  | some vals =>
      let fullName := replacePy fullName " cardinality [1..*]" ""
      let valSubs := vals.foldl (fun acc value =>
        let boolDefaultValue := containsSub "\x7bdefault" value
        let value := if boolDefaultValue then replacePy value " \x7bdefault\x7d" "" else value
        let fullNameValue := fullName ++ "_" ++ value
        if containsSub "_Healthy" fullNameValue then acc
        else
          let auxDescrValue := "Specific value: " ++ value
          acc ++ [Feature.mk
            (if boolDefaultValue then
              fullNameValue ++ " \x7bdefault, doc \x27" ++ auxDescrValue ++ "\x27\x7d"
             else fullNameValue ++ " \x7bdoc \x27" ++ auxDescrValue ++ "\x27\x7d")
            "alternative" auxDescrValue [] ""]) []
      (subs ++ valSubs, fullName, "")
  | none =>
      if booleanKeywords.any (fun k => containsSub k fullName) ||
         booleanKeywordsRegexMatch fullName ||
         (specialFeaturesConfig.any (fun k => containsSub k fullName) &&
          containsSub "Note that this field cannot be set when" pre.descr) then
        let fullName := replacePy fullName " \x7babstract\x7d" ""
        let auxDescrMandatory :=
          "Added String mandatory for changing booleans of boolean_keywords: " ++
          g.featureAuxOriginalType ++ " *_name"
        if g.featureAuxOriginalType = "String" || g.featureAuxOriginalType = "string" then
          (subs ++ [Feature.mk
            (fullName ++ "_nameStr \x7bdoc \x27" ++ auxDescrMandatory ++ "\x27\x7d")
            "mandatory" auxDescrMandatory [] "String"], fullName, pre.featTypeData)
        else if g.featureAuxOriginalType = "Integer" ||
            g.featureAuxOriginalType = "integer" then
          (subs ++ [Feature.mk
            (fullName ++ "_valueInt \x7bdoc \x27" ++ auxDescrMandatory ++ "\x27\x7d")
            "mandatory" auxDescrMandatory [] "Integer"], fullName, pre.featTypeData)
        else (subs, fullName, pre.featTypeData)
      else (subs, fullName, pre.featTypeData)

/-- The `$ref` / `items` / `additionalProperties` expansion dispatch at the
head of each `parse_properties` iteration, factored out with the recursive
call `rec` (the parser at the remaining fuel) passed explicitly: `none` = the
fuel ran out inside a sub-expansion, `some none` = cyclic reference (the
source's `continue`), `some (some (subs, fullName, g))` = proceed with the
rest of the loop body using the collected sub-features. -/
def expandStage (defs : List (String × Schema))
    (rec : List String → List (String × Schema) → List String → String → Nat →
           GState → LState → Option (List Feature × List Feature × GState × LState))
    (stack : List String) (prop : String) (details : Schema)
    (required : List String) (depth : Nat) (pre : PreOut) :
    Option (Option (List Feature × String × GState)) :=
    match details.ref? with
    | some ref =>
        if stack.contains ref then some none
        else
          let stack' := stack ++ [ref]
          match resolveReference defs ref with
          | some refSchema =>
              let refName := sanitizeName (lastSegBy '/' ref)
              match refSchema.properties? with
              | some subProps =>
                  (rec stack' subProps refSchema.required
                      pre.fullName (depth + 1) pre.g LState.init).map
                    (fun (sm, so, g2, _) =>
                      let subs := sm ++ so
                      let subs :=
                        if endsWithPy "emptyDir" pre.fullName ||
                           endsWithPy "EmptyDirVolumeSource" pre.fullName then
                          subs ++ [emptyDirFeature pre.fullName]
                        else subs
                      some (subs, pre.fullName, g2))
              | none =>
                  match refSchema.oneOf? with
                  | some oneOfList =>
                      let featType2 := if required.contains prop || pre.isReqByDescr
                                       then "mandatory" else "optional"
                      let (oneOfFeature, g2) :=
                        processOneOf oneOfList (sanitizeName pre.fullName) featType2 pre.g
                      some (some (oneOfFeature.subFeatures, pre.fullName, g2))
                  | none =>
                      let sanitizedRef := sanitizeName (lastSegBy '_' refName)
                      let auxDescr := refSchema.description
                      let auxSan := cleanedDescr auxDescr
                      let (tdSimple, card2) :=
                        sanitizeTypeData (refSchema.type?.getD "") pre.g.isCardinality
                      let g2 := { pre.g with isCardinality := card2 }
                      let base := [Feature.mk
                        (pre.fullName ++ "_" ++ sanitizedRef ++ " \x7bdoc \x27" ++ auxSan ++ "\x27\x7d")
                        "optional" auxDescr [] tdSimple]
                      let base :=
                        if endsWithPy "creationTimestamp" pre.fullName then
                          base ++ [isNullFeature pre.fullName]
                        else if endsWithPy "fieldsV1" pre.fullName then
                          base ++ [isEmpty02Feature pre.fullName]
                        else base
                      some (some (base, pre.fullName, g2))
          | none => some (some ([], pre.fullName, pre.g))
    | none =>
    match details.items? with
    | some items =>
        (match items.ref? with
         | some ref =>
             if stack.contains ref then some none
             else
               let stack' := stack ++ [ref]
               match resolveReference defs ref with
               | some refSchema =>
                   let refName := sanitizeName (lastSegBy '/' ref)
                   match refSchema.properties? with
                   | some subProps =>
                       (rec stack' subProps refSchema.required
                           pre.fullName (depth + 1) pre.g LState.init).map
                         (fun (im, io, g2, _) =>
                           some (im ++ io, pre.fullName, g2))
                   | none =>
                       let sanitizedRef := sanitizeName (lastSegBy '_' refName)
                       let fullName2 := replacePy pre.fullName " cardinality [1..*]" ""
                       let auxSan := cleanedDescr refSchema.description
                       some (some ([Feature.mk
                         (fullName2 ++ "_" ++ sanitizedRef ++ " \x7bdoc \x27" ++ auxSan ++ "\x27\x7d")
                         "optional" auxSan [] ""], fullName2, pre.g))
               | none => some (some ([], pre.fullName, pre.g))
         | none =>
             match items.type? with
             | some t =>
                 if pre.g.isCardinality then
                   let fullName2 := replacePy pre.fullName " cardinality [1..*]" ""
                   if t = "string" && !pre.boolAddedValue then
                     some (some ([Feature.mk
                       (fullName2 ++ "_StringValue \x7bdoc \x27" ++ auxDescrStringItems ++ "\x27\x7d")
                       "mandatory" auxDescrStringItems [] "String"], fullName2, pre.g))
                   else if t = "integer" then
                     some (some ([Feature.mk
                       (fullName2 ++ "_IntegerValue \x7bdoc \x27" ++ auxDescrIntegerItems ++ "\x27\x7d")
                       "mandatory" auxDescrIntegerItems [] "Integer"], fullName2, pre.g))
                   else some (some ([], fullName2, pre.g))
                 else some (some ([], pre.fullName, pre.g))
             | none => some (some ([], pre.fullName, pre.g)))
    | none =>
    match details.addProps? with
    | some ap =>
        (match ap.ref? with
         | some ref =>
             if stack.contains ref then some none
             else
               let stack' := stack ++ [ref]
               match resolveReference defs ref with
               | some refSchema =>
                   let refName := sanitizeName (lastSegBy '/' ref)
                   match refSchema.properties? with
                   | some subProps =>
                       (rec stack' subProps []
                           pre.fullName (depth + 1) pre.g LState.init).map
                         (fun (im, io, g2, _) =>
                           some (im ++ io, pre.fullName, g2))
                   | none =>
                       match refSchema.oneOf? with
                       | some oneOfList =>
                           let fullName2 := replacePy pre.fullName " cardinality [1..*]" ""
                           let (oneOfFeature, g2) :=
                             processOneOf oneOfList (sanitizeName fullName2)
                               pre.featType pre.g
                           some (some (oneOfFeature.subFeatures, fullName2, g2))
                       | none =>
                           let sanitizedRef := sanitizeName (lastSegBy '_' refName)
                           let fullName2 := replacePy pre.fullName " cardinality [1..*]" ""
                           let auxSan := cleanedDescr refSchema.description
                           some (some ([Feature.mk
                             (fullName2 ++ "_" ++ sanitizedRef ++ " \x7bdoc \x27" ++ auxSan ++ "\x27\x7d")
                             "optional" refSchema.description [] ""], fullName2, pre.g))
               | none => some (some ([], pre.fullName, pre.g))
         | none =>
             match ap.items? with
             | some items2 =>
                 if pre.g.isCardinality then
                   -- a missing `items['type']` key raises `KeyError` in the
                   -- source; the default `""` matches neither branch below
                   let t := (items2.type?).getD ""
                   if t = "string" && !pre.boolAddedValue then
                     let fullName2 := replacePy pre.fullName " cardinality [1..*]" ""
                     some (some ([Feature.mk
                       (fullName2 ++ "_StringValueAdditional \x7bdoc \x27" ++ auxDescrStringAPItems ++ "\x27\x7d")
                       "mandatory" auxDescrStringAPItems [] "String"], fullName2, pre.g))
                   else some (some ([], pre.fullName, pre.g))
                 else some (some ([], pre.fullName, pre.g))
             | none =>
                 match ap.type? with
                 | some t =>
                     if pre.g.isCardinality && t = "string" && !pre.boolAddedValue then
                       let fullName2 := replacePy
                         (replacePy pre.fullName " cardinality [1..*]" "")
                         " cardinality [0..*]" ""
                       if listLocalFeaturesMaps.any
                           (fun w => containsSub w pre.descr) then
                         some (some ([Feature.mk
                           (fullName2 ++ "_KeyMap \x7bdoc \x27key: " ++ auxDescrMapsProperties ++ "\x27\x7d")
                           "mandatory" auxDescrMapsProperties [] "String",
                           Feature.mk
                           (fullName2 ++ "_ValueMap \x7bdoc \x27value: " ++ auxDescrMapsProperties ++ "\x27\x7d")
                           "mandatory" auxDescrMapsProperties [] "String"],
                           fullName2, pre.g))
                       else if containsSub "unstructured key value map" pre.descr then
                         some (some ([Feature.mk
                           (fullName2 ++ "_KeyMap \x7bdoc \x27key: " ++ auxDescrMapsProperties ++ "\x27\x7d")
                           "optional" auxDescrMapsProperties [] "String",
                           Feature.mk
                           (fullName2 ++ "_ValueMap \x7bdoc \x27value: " ++ auxDescrMapsProperties ++ "\x27\x7d")
                           "optional" auxDescrMapsProperties [] "String"],
                           fullName2, pre.g))
                       else
                         some (some ([Feature.mk
                           (fullName2 ++ "_StringValueAdditional \x7bdoc \x27" ++ auxDescrStringProperties ++ "\x27\x7d")
                           "mandatory" auxDescrStringProperties [] "String"],
                           fullName2, pre.g))
                     else some (some ([], pre.fullName, pre.g))
                 | none => some (some ([], pre.fullName, pre.g)))
    | none => some (some ([], pre.fullName, pre.g))

/-- `parse_properties(properties, required, parent_name, depth,
local_stack_refs)`, fuelled: `none` means the fuel ran out (the termination
theorem below shows a computable bound never does).  The property list is
processed in order (the source's `deque` holds a single work item, so the
`while` loop is one pass over `properties.items()`); the branch-local
`$ref` stack is passed extended to sub-expansions and unchanged to the next
property, which models exactly the source's push/pop on a shared list, since
its recursion always restores the stack on return. -/
def parsePropsF (defs : List (String × Schema)) :
    Nat → List String → List (String × Schema) → List String → String → Nat →
    GState → LState → Option (List Feature × List Feature × GState × LState)
  | 0, _, _, _, _, _, _, _ => none
  | _ + 1, _, [], _, _, _, g, l => some ([], [], g, l)
  | n + 1, stack, (prop, details) :: rest, required, parent, depth, g, l =>
      let sanitizedName := sanitizeName prop
      let qualName := if parent ≠ "" then parent ++ "_" ++ sanitizedName else sanitizedName
      if g.processed.contains qualName then
        parsePropsF defs n stack rest required parent depth g l
      else
        let pre := preStage prop details required parent g l
        match expandStage defs
            (fun st ps rq pa dp g2 l2 => parsePropsF defs n st ps rq pa dp g2 l2)
            stack prop details required depth pre with
        | none => none
        | some none =>
            -- cyclic reference: the property is skipped entirely (`continue`),
            -- with the pre-stage's classification side effects retained
            parsePropsF defs n stack rest required parent depth pre.g pre.l
        | some (some (subs, fullName2, g2)) =>
            let (subs3, fullName3, featTypeData3) := valueStage pre subs fullName2 g2
            match (match details.properties? with
                   | some subProps =>
                       (parsePropsF defs n stack subProps details.required
                           (strOf (stripBracesL fullName3.data)) (depth + 1) g2 LState.init).map
                         (fun ((m2, o2, g4, _) :
                             List Feature × List Feature × GState × LState) =>
                           (subs3 ++ m2 ++ o2, g4))
                   | none => some (subs3, g2)) with
            | none => none
            | some (subsF, gF) =>
                let feature := Feature.mk pre.featName pre.featType pre.descr subsF featTypeData3
                let gF := { gF with processed := setAdd gF.processed fullName3 }
                (parsePropsF defs n stack rest required parent depth gF pre.l).map
                  (fun (ms, os, gT, lT) =>
                    if pre.featType = "mandatory" then (feature :: ms, os, gT, lT)
                    else (ms, feature :: os, gT, lT))

/-- The serializer's own keyword list (`boolean_keywords` of
`properties_to_uvl`, a shorter list than the processor's). -/
def serializerBooleanKeywords : List String :=
  ["AppArmorProfile_localhostProfile", "appArmorProfile_localhostProfile",
   "seccompProfile_localhostProfile", "SeccompProfile_localhostProfile",
   "IngressClassList_items_spec_parameters_namespace",
   "IngressClassParametersReference_namespace", "IngressClass_spec_parameters_namespace",
   "IngressClassSpec_parameters_namespace"]

/-- The type prefix emitted by `properties_to_uvl` for one feature line
(`Boolean` is rendered as no prefix; the keyword override forces the empty
prefix except on `nameStr`-suffixed names). -/
def uvlTypePrefix (f : Feature) : String :=
  let typeStr := if f.typeData ≠ "" then pyCapitalize f.typeData ++ " " else "Boolean "
  let typeStr := if typeStr = "Boolean " then "" else typeStr
  if serializerBooleanKeywords.any (fun k => containsSub k f.name) &&
     !endsWithPy "nameStr" f.name then ""
  else typeStr

/-- Fuelled worker of `properties_to_uvl`. -/
def propertiesToUvlF : Nat → List Feature → Nat → String
  | 0, _, _ => ""
  | n + 1, feats, indent =>
      feats.foldl (fun out f =>
        let indentStr := strOf (List.replicate indent '\t')
        let typeStr := uvlTypePrefix f
        match f.subFeatures with
        | [] => out ++ indentStr ++ typeStr ++ f.name ++ "\n"
        | subs =>
            let subMandatory := subs.filter (fun s => s.ftype = "mandatory")
            let subOptional := subs.filter (fun s => s.ftype = "optional")
            let subAlternative := subs.filter (fun s => s.ftype = "alternative")
            out ++ indentStr ++ typeStr ++ f.name ++ "\n" ++
            (if !subMandatory.isEmpty then
              indentStr ++ "\tmandatory\n" ++ propertiesToUvlF n subMandatory (indent + 2)
             else "") ++
            (if !subOptional.isEmpty then
              indentStr ++ "\toptional\n" ++ propertiesToUvlF n subOptional (indent + 2)
             else "") ++
            (if !subAlternative.isEmpty then
              indentStr ++ "\talternative\n" ++ propertiesToUvlF n subAlternative (indent + 2)
             else "")) ""

/-- `properties_to_uvl(feature_list, indent)` with an explicit bound on the
recursion depth: the source recursion is structural in the tree, so any
`fuel` at least the tree height yields its result. -/
def propertiesToUvl (fuel : Nat) (feats : List Feature) (indent : Nat) : String :=
  propertiesToUvlF fuel feats indent

/-- Does the conversion of a record raise (propagate an exception out of
`generar_constraintsDef`)? -/
def recIsError (r : DescriptionRecord) : Bool :=
  match convertToUvlConstraints r.featureName r.description r.typeData with
  | Except.error _ => true
  | Except.ok _ => false

/-- Does the conversion of a record return Python `None` (the case that
increments the untranslatable-descriptions counter)? -/
def recNoRule (r : DescriptionRecord) : Bool :=
  match convertToUvlConstraints r.featureName r.description r.typeData with
  | Except.ok none => true
  | _ => false

/-- The constraint emitted for a record by `generar_constraintsDef`, if any
(a returned rule is appended only when it is truthy, i.e. nonempty). -/
def emittedRule (r : DescriptionRecord) : Option String :=
  match convertToUvlConstraints r.featureName r.description r.typeData with
  | Except.ok (some s) => if s ≠ "" then some s else none
  | _ => none

/-- A record whose description matches the `Exactly one of` dispatch trigger
but none of the three `least_one` extraction patterns (no backticks): the
extractor returns the empty string, which is neither emitted nor counted. -/
def c9badRecs : List DescriptionRecord :=
  [⟨"g_h", "Exactly one of foo or bar is allowed.", "Boolean"⟩]

/-- Records exercising the three conversion outcomes: an emitted rule, an
empty-string rule (dropped uncounted) and a `None` result (counted). -/
def c9recs : List DescriptionRecord :=
  [⟨"spec_port", "Minimum value is 1024.", "Integer"⟩,
   ⟨"g_h", "Exactly one of foo or bar is allowed.", "Boolean"⟩,
   ⟨"h_k", "Just a plain docstring.", "Boolean"⟩]

/-- The plain-quoted required-when description of C5, with no unset clause. -/
def c5PlainDescription : String :=
  "Required when strategy is set to \"Webhook\" for the conversion."

/-- The backtick-quoted required-when description (the form occurring in the
Kubernetes schema corpus). -/
def c5TickedDescription : String :=
  "clientConfig defines how to communicate with the hook. Required when `strategy` is set to `\"Webhook\"`."

/-- The qualified feature path computed at the head of each property
iteration of `parse_properties` (`parent_name + "_" + sanitized_name` when a
parent exists), the key of the processed-set lookup. -/
def qualifiedName (parent prop : String) : String :=
  if parent ≠ "" then parent ++ "_" ++ sanitizeName prop else sanitizeName prop

/-- The number of definition names not yet shadowed by the branch-local
reference stack: the quantity that strictly decreases at every `$ref`
descent of `parse_properties`. -/
def refsAvail (defs : List (String × Schema)) (stack : List String) : Nat :=
  ((defs.map Prod.fst).filter
    (fun nm => !stack.contains ("#/definitions/" ++ nm))).length

/-- C1 scenario: definition `D` with an array-typed property `q`. -/
def c1Defs : List (String × Schema) :=
  [("D", Schema.mk none "" [] none none none
      (some [("q", Schema.leaf (some "array") "")]) [] none)]

/-- C1 scenario root: a property `p` carrying both `$ref: #/definitions/D`
and an inline copy of the same `properties` block, so `q` is reached along
two expansion paths under the same qualified path `root_p_q`. -/
def c1Props : List (String × Schema) :=
  [("p", Schema.mk none "" [] (some "#/definitions/D") none none
      (some [("q", Schema.leaf (some "array") "")]) [] none)]

/-- The C1 scenario with `q` declared `string` instead of `array`, so the
marked name carries no cardinality annotation. -/
def c1bDefs : List (String × Schema) :=
  [("D", Schema.mk none "" [] none none none
      (some [("q", Schema.leaf (some "string") "")]) [] none)]

/-- The root property list of the non-annotated C1 scenario. -/
def c1bProps : List (String × Schema) :=
  [("p", Schema.mk none "" [] (some "#/definitions/D") none none
      (some [("q", Schema.leaf (some "string") "")]) [] none)]

/-- C2 scenario: a definition `D` whose `self` property references `D`
itself, next to an expandable `leaf` property. -/
def c2Defs : List (String × Schema) :=
  [("D", Schema.mk none "" [] none none none
      (some [("self", Schema.refNode "#/definitions/D"),
             ("leaf", Schema.leaf (some "string") "")]) [] none)]

/-- Two sibling root properties both referencing the self-referential `D`. -/
def c2Props : List (String × Schema) :=
  [("a", Schema.refNode "#/definitions/D"), ("b", Schema.refNode "#/definitions/D")]

/-- C4 scenario: a description matching the `Exactly one of` restriction
trigger, paired below with the short feature path `a_b`. -/
def c4Description : String :=
  "Exactly one of `url` or `service` must be specified."

/-- C6 counterexample scenario: a `_datasetUUID` boolean-keyword field
declared `string` with an empty description. -/
def c6aProps : List (String × Schema) :=
  [("datasetUUID", Schema.leaf (some "string") "")]

/-- C6 amended scenario: the same keyword field with its docstring. -/
def c6bProps : List (String × Schema) :=
  [("datasetUUID", Schema.leaf (some "string")
      "datasetUUID is the UUID of the dataset.")]

/-- C7: a supported-values description whose extracted candidate set is
exactly the plain literal set of the claim (no default clause). -/
def c7PlainDescription : String :=
  "The currently supported values are NodePort, ClusterIP, None, LoadBalancer and ExternalName."

/-- C7: the same description with a default clause, so the extracted set
carries the `ClusterIP \x7bdefault\x7d` marker and equals `case_not_none`. -/
def c7DefaultDescription : String :=
  "The currently supported values are NodePort, ClusterIP, None, LoadBalancer and ExternalName. Defaults to ClusterIP."

/-! ## Theorems -/

/-- Pointwise-implied filters have monotone lengths. -/
theorem filter_length_mono {p q : String → Bool} :
    ∀ (l : List String), (∀ x ∈ l, q x = true → p x = true) →
      (l.filter q).length ≤ (l.filter p).length := by
  intro l
  induction l with
  | nil => intro _; simp
  | cons x xs ih =>
      intro himp
      have ih' := ih (fun y hy => himp y (List.mem_cons_of_mem x hy))
      cases hq : q x with
      | false =>
          cases hp : p x with
          | false => simp [List.filter_cons, hq, hp]; omega
          | true => simp [List.filter_cons, hq, hp]; omega
      | true =>
          have hp := himp x (List.mem_cons_self x xs) hq
          simp [List.filter_cons, hq, hp]; omega

/-- A filter that loses at least one element of a stronger filter is strictly
shorter. -/
theorem filter_length_strict {p q : String → Bool} :
    ∀ (l : List String), (∀ x ∈ l, q x = true → p x = true) →
      ∀ a ∈ l, p a = true → q a = false →
      (l.filter q).length < (l.filter p).length := by
  intro l
  induction l with
  | nil => intro _ a ha; cases ha
  | cons x xs ih =>
      intro himp a ha hpa hqa
      have himp' : ∀ y ∈ xs, q y = true → p y = true :=
        fun y hy => himp y (List.mem_cons_of_mem x hy)
      have hmono := filter_length_mono xs himp'
      rcases List.mem_cons.mp ha with rfl | ha'
      · simp [List.filter_cons, hpa, hqa]; omega
      · have hlt := ih himp' a ha' hpa hqa
        cases hq : q x with
        | false =>
            cases hp : p x with
            | false => simp [List.filter_cons, hq, hp]; omega
            | true => simp [List.filter_cons, hq, hp]; omega
        | true =>
            have hp := himp x (List.mem_cons_self x xs) hq
            simp [List.filter_cons, hq, hp]; omega

/-- Pushing a resolvable, not-yet-visited reference strictly shrinks the
available-definitions count. -/
theorem refsAvail_push {defs : List (String × Schema)} {stack : List String}
    {name : String} (hmem : name ∈ defs.map Prod.fst)
    (hns : ("#/definitions/" ++ name) ∉ stack) :
    refsAvail defs (stack ++ ["#/definitions/" ++ name]) < refsAvail defs stack := by
  unfold refsAvail
  apply filter_length_strict (defs.map Prod.fst) ?_ name hmem ?_ ?_
  · intro x _ hqx
    simp at hqx ⊢
    exact hqx.1
  · simpa using hns
  · simp

/-- Stripping a prefix recovers the concatenation. -/
theorem dropPreL_spec :
    ∀ (p t r : List Char), dropPreL p t = some r → t = p ++ r := by
  intro p
  induction p with
  | nil =>
      intro t r h
      simp only [dropPreL, Option.some.injEq] at h
      simp [h]
  | cons c cs ih =>
      intro t r h
      cases t with
      | nil => simp [dropPreL] at h
      | cons x xs =>
          simp only [dropPreL] at h
          split at h
          · rename_i hcx
            have := ih xs r h
            simp [hcx, this]
          · cases h

/-- A successful `resolve_reference` exposes the definition name and returns
a strict subterm of the definitions table. -/
theorem resolveReference_spec {defs : List (String × Schema)} {ref : String}
    {s : Schema} (h : resolveReference defs ref = some s) :
    ∃ name, ref = "#/definitions/" ++ name ∧ name ∈ defs.map Prod.fst ∧
      sizeOf s < sizeOf defs := by
  unfold resolveReference at h
  split at h
  · rename_i nameL hd
    split at h
    · cases hf : defs.find? (fun pr => pr.1 = strOf nameL) with
      | none => rw [hf] at h; simp at h
      | some pr =>
          rw [hf] at h
          simp at h
          subst h
          have hmem := List.mem_of_find?_eq_some hf
          have hname : pr.1 = strOf nameL := by
            have h2 := List.find?_some hf
            simpa using h2
          have hdata : ref.data = (lc "#/definitions/") ++ nameL :=
            dropPreL_spec _ _ _ hd
          refine ⟨strOf nameL, ?_, ?_, ?_⟩
          · cases ref with
            | mk d =>
                have hd2 : d = (lc "#/definitions/") ++ nameL := hdata
                rw [hd2]; rfl
          · rw [← hname]
            exact List.mem_map_of_mem Prod.fst hmem
          · have h1 : sizeOf pr < sizeOf defs := List.sizeOf_lt_of_mem hmem
            have h2 : sizeOf pr.2 < sizeOf pr := by
              cases pr with
              | mk a b => simp
            omega
    · simp at h
  · simp at h

/-- A `properties` table is a strict subterm of its schema node. -/
theorem sizeOf_properties {s : Schema} {ps : List (String × Schema)}
    (h : s.properties? = some ps) : sizeOf ps < sizeOf s := by
  cases s with
  | mk t d e r i a p rq o =>
      simp only [Schema.properties?] at h
      subst h
      simp
      omega

/-- A nested `properties` table is smaller than the work list holding its
parent node. -/
theorem sizeOf_head_properties {prop : String} {details : Schema}
    {rest ps : List (String × Schema)} (h : details.properties? = some ps) :
    sizeOf ps < sizeOf ((prop, details) :: rest) := by
  have h1 := sizeOf_properties h
  have h2 : sizeOf details < sizeOf ((prop, details) :: rest) := by
    simp; omega
  omega

/-- If every reference sub-expansion the dispatch can make succeeds, the
dispatch itself succeeds (never runs out of fuel). -/
theorem expandStage_isSome {defs : List (String × Schema)}
    {rec : List String → List (String × Schema) → List String → String → Nat →
           GState → LState → Option (List Feature × List Feature × GState × LState)}
    {stack : List String} {prop : String} {details : Schema}
    {required : List String} {depth : Nat} {pre : PreOut}
    (hrec : ∀ (ref : String) (refSchema : Schema)
      (subProps : List (String × Schema)) (req2 : List String),
      ¬stack.contains ref = true →
      resolveReference defs ref = some refSchema →
      refSchema.properties? = some subProps →
      (rec (stack ++ [ref]) subProps req2 pre.fullName (depth + 1) pre.g
        LState.init).isSome = true) :
    (expandStage defs rec stack prop details required depth pre).isSome = true := by
  unfold expandStage
  repeat' split
  all_goals try rfl
  all_goals try (rw [apply_ite Option.isSome]; simp)
  all_goals simp only [Option.isSome_map']
  all_goals exact hrec _ _ _ _ (by assumption) (by assumption) (by assumption)

/-- Fuel sufficiency for `parse_properties`: any fuel above the
available-references/work-list measure yields a result, so the source
recursion (which carries no fuel) terminates on every input. -/
theorem parsePropsF_total (N : Nat) :
    ∀ (defs : List (String × Schema)) (stack : List String)
      (props : List (String × Schema)) (required : List String)
      (parent : String) (depth : Nat) (g : GState) (l : LState),
      refsAvail defs stack * (sizeOf defs + 1) + sizeOf props < N →
      (parsePropsF defs N stack props required parent depth g l).isSome = true := by
  induction N with
  | zero => intro _ _ _ _ _ _ _ _ h; omega
  | succ n ih =>
      intro defs stack props required parent depth g l h
      rcases props with _ | ⟨⟨prop, details⟩, rest⟩
      · simp [parsePropsF]
      · have hsz : sizeOf ((prop, details) :: rest) =
            1 + (1 + sizeOf prop + sizeOf details) + sizeOf rest := by
          simp
        have hdesc : ∀ (ref : String) (refSchema : Schema)
            (subProps : List (String × Schema)),
            ¬stack.contains ref = true →
            resolveReference defs ref = some refSchema →
            refSchema.properties? = some subProps →
            refsAvail defs (stack ++ [ref]) * (sizeOf defs + 1) +
              sizeOf subProps < n := by
          intro ref refSchema subProps hst hres hp
          obtain ⟨name, hrefEq, hnameMem, hsizeS⟩ := resolveReference_spec hres
          subst hrefEq
          have hst2 : ("#/definitions/" ++ name) ∉ stack := by simpa using hst
          have h3 : refsAvail defs (stack ++ ["#/definitions/" ++ name]) <
              refsAvail defs stack := refsAvail_push hnameMem hst2
          have h4 : sizeOf subProps < sizeOf defs + 1 := by
            have := sizeOf_properties hp; omega
          have h5 : refsAvail defs (stack ++ ["#/definitions/" ++ name]) *
                (sizeOf defs + 1) + sizeOf subProps <
              refsAvail defs stack * (sizeOf defs + 1) := by
            calc refsAvail defs (stack ++ ["#/definitions/" ++ name]) *
                  (sizeOf defs + 1) + sizeOf subProps
                < refsAvail defs (stack ++ ["#/definitions/" ++ name]) *
                  (sizeOf defs + 1) + (sizeOf defs + 1) := by omega
              _ = (refsAvail defs (stack ++ ["#/definitions/" ++ name]) + 1) *
                  (sizeOf defs + 1) := by ring
              _ ≤ refsAvail defs stack * (sizeOf defs + 1) :=
                  mul_le_mul_right' (Nat.succ_le_of_lt h3) (sizeOf defs + 1)
          omega
        simp only [parsePropsF]
        generalize (if parent ≠ "" then parent ++ "_" ++ sanitizeName prop
          else sanitizeName prop) = qn
        split
        · exact ih defs stack rest required parent depth g l (by omega)
        · have hrec : ∀ (ref : String) (refSchema : Schema)
              (subProps : List (String × Schema)) (req2 : List String),
              ¬stack.contains ref = true →
              resolveReference defs ref = some refSchema →
              refSchema.properties? = some subProps →
              ((fun st ps rq pa dp g2 l2 => parsePropsF defs n st ps rq pa dp g2 l2)
                (stack ++ [ref]) subProps req2
                (preStage prop details required parent g l).fullName (depth + 1)
                (preStage prop details required parent g l).g
                LState.init).isSome = true := by
            intro ref refSchema subProps req2 hst hres hp
            exact ih defs (stack ++ [ref]) subProps req2
              (preStage prop details required parent g l).fullName (depth + 1)
              (preStage prop details required parent g l).g LState.init
              (hdesc ref refSchema subProps hst hres hp)
          have hex := @expandStage_isSome defs
            (fun st ps rq pa dp g2 l2 => parsePropsF defs n st ps rq pa dp g2 l2)
            stack prop details required depth
            (preStage prop details required parent g l) hrec
          obtain ⟨eo, heo⟩ := Option.isSome_iff_exists.mp hex
          rw [heo]
          cases eo with
          | none =>
              have := ih defs stack rest required parent depth
                (preStage prop details required parent g l).g
                (preStage prop details required parent g l).l (by omega)
              simpa using this
          | some x =>
              obtain ⟨subs, fullName2, g2⟩ := x
              cases hps : details.properties? with
              | none =>
                  have htail := ih defs stack rest required parent depth
                    { g2 with processed := (setAdd g2.processed
                        (valueStage (preStage prop details required parent g l)
                          subs fullName2 g2).2.1) }
                    (preStage prop details required parent g l).l (by omega)
                  obtain ⟨rt, hrt⟩ := Option.isSome_iff_exists.mp htail
                  simp [hps, hrt]
              | some subProps =>
                  have h6 : sizeOf subProps < sizeOf ((prop, details) :: rest) :=
                    sizeOf_head_properties hps
                  have hnest := ih defs stack subProps details.required
                    (strOf (stripBracesL
                      (valueStage (preStage prop details required parent g l)
                        subs fullName2 g2).2.1.data)) (depth + 1) g2
                    LState.init (by omega)
                  obtain ⟨rn, hrn⟩ := Option.isSome_iff_exists.mp hnest
                  obtain ⟨rm, ro, g4, l4⟩ := rn
                  have htail := ih defs stack rest required parent depth
                    { g4 with processed := (setAdd g4.processed
                        (valueStage (preStage prop details required parent g l)
                          subs fullName2 g2).2.1) }
                    (preStage prop details required parent g l).l (by omega)
                  obtain ⟨rt, hrt⟩ := Option.isSome_iff_exists.mp htail
                  simp [hps, hrn, hrt]

/-- A property whose qualified path is already marked processed is skipped
with no effect at all. -/
theorem parsePropsF_skip (defs : List (String × Schema)) (n : Nat)
    (stack : List String) (prop : String) (details : Schema)
    (rest : List (String × Schema)) (required : List String) (parent : String)
    (depth : Nat) (g : GState) (l : LState)
    (hq : g.processed.contains (qualifiedName parent prop) = true) :
    parsePropsF defs (n + 1) stack ((prop, details) :: rest) required parent
        depth g l =
      parsePropsF defs n stack rest required parent depth g l := by
  have hq2 : g.processed.contains (if parent ≠ "" then parent ++ "_" ++
      sanitizeName prop else sanitizeName prop) = true := hq
  simp only [parsePropsF]
  rw [if_pos hq2]

/-- A `$ref` already on the branch-local stack causes the property to be
skipped (the source `continue`), retaining only the pre-stage bookkeeping. -/
theorem parsePropsF_cycle (defs : List (String × Schema)) (n : Nat)
    (stack : List String) (prop : String) (details : Schema)
    (rest : List (String × Schema)) (required : List String) (parent : String)
    (depth : Nat) (g : GState) (l : LState) (ref : String)
    (hq : g.processed.contains (qualifiedName parent prop) = false)
    (href : details.ref? = some ref) (hcyc : stack.contains ref = true) :
    parsePropsF defs (n + 1) stack ((prop, details) :: rest) required parent
        depth g l =
      parsePropsF defs n stack rest required parent depth
        (preStage prop details required parent g l).g
        (preStage prop details required parent g l).l := by
  have hq2 : ¬(g.processed.contains (if parent ≠ "" then parent ++ "_" ++
      sanitizeName prop else sanitizeName prop) = true) := by
    rw [Bool.not_eq_true]; exact hq
  have hcyc2 : ref ∈ stack := by simpa using hcyc
  have hex : expandStage defs
      (fun st ps rq pa dp g2 l2 => parsePropsF defs n st ps rq pa dp g2 l2)
      stack prop details required depth
      (preStage prop details required parent g l) = some none := by
    unfold expandStage
    rw [href]
    simp [hcyc2]
  simp only [parsePropsF]
  rw [if_neg hq2, hex]

/-- Specification of the `generar_constraintsDef` fold on record lists whose
conversions do not raise: the emitted rules are the nonempty returned rule
strings in order, and the reported count is the number of records whose
conversion returned `None`. -/
theorem generarGo_spec (recs : List DescriptionRecord) :
    ∀ rules cnt, (∀ r ∈ recs, recIsError r = false) →
    generarGo recs rules cnt =
      Except.ok (rules ++ recs.filterMap emittedRule,
        cnt + (recs.filter recNoRule).length) := by
  induction recs with
  | nil => intro rules cnt _; simp [generarGo]
  | cons r rest ih =>
      intro rules cnt h
      have hr : recIsError r = false := h r (List.mem_cons_self r rest)
      have hrest : ∀ x ∈ rest, recIsError x = false :=
        fun x hx => h x (List.mem_cons_of_mem r hx)
      cases hc : convertToUvlConstraints r.featureName r.description r.typeData with
      | error e => simp [recIsError, hc] at hr
      | ok o =>
          cases o with
          | none =>
              have h1 : recNoRule r = true := by simp [recNoRule, hc]
              have h2 : emittedRule r = none := by simp [emittedRule, hc]
              simp [generarGo, hc, ih rules (cnt + 1) hrest, h1, h2,
                List.filterMap_cons, List.filter_cons]
              omega
          | some s =>
              by_cases hs : s = ""
              · have h1 : recNoRule r = false := by simp [recNoRule, hc]
                have h2 : emittedRule r = none := by simp [emittedRule, hc, hs]
                simp [generarGo, hc, hs, ih rules cnt hrest, h1, h2,
                  List.filterMap_cons, List.filter_cons]
              · have h1 : recNoRule r = false := by simp [recNoRule, hc]
                have h2 : emittedRule r = some s := by simp [emittedRule, hc, hs]
                simp [generarGo, hc, hs, ih (rules ++ [s]) cnt hrest, h1, h2,
                  List.filterMap_cons, List.filter_cons]

/-- C3: for a description on which the minimum-value trigger matched but the
inner pattern did not, `extract_minimum_value` returns the empty string
instead of raising (its closing `raise` is dead code, contradicting its own
docstring), and the conversion silently returns that empty rule; the
restartPolicy-only-allowed extractor, by contrast, does raise on a matched
trigger with an unparsable body, and the exception propagates out of the
conversion. -/
theorem c3_matched_trigger_unparsable_body :
    extractMinimumValue "Minimum value is unknown." "f" = Except.ok "" ∧
    convertToUvlConstraints "f" "Minimum value is unknown." "Integer" =
      Except.ok (some "") ∧
    (extractConstraintsTemplateOnlyAllowed
      "The template.spec.restartPolicy value is special." "f_k").isOk = false ∧
    (convertToUvlConstraints "f_k"
      "The template.spec.restartPolicy value is special." "Boolean").isOk = false :=
  ⟨rfl, rfl, rfl, rfl⟩

/-- C5 counterexample: on the plain-quoted description
`Required when strategy is set to "Webhook"` (no backticks, no unset clause)
the synthesiser returns the empty rule and emits no constraint at all, so the
claimed implication `x_y_strategy_Webhook => x_y_clientConfig` is not produced. -/
theorem c5_counterexample :
    convertToUvlConstraints "x_y_clientConfig" c5PlainDescription "Boolean" =
      Except.ok (some "") ∧
    generarConstraintsDef [⟨"x_y_clientConfig", c5PlainDescription, "Boolean"⟩] =
      Except.ok ([], 0) :=
  ⟨rfl, rfl⟩

/-- C5 amended: on the backtick-quoted form
``Required when `strategy` is set to `"Webhook"` `` (the form present in the
schema corpus) the synthesiser emits exactly the implication
`x_y_strategy_Webhook => x_y_clientConfig`. -/
theorem c5_amended :
    convertToUvlConstraints "x_y_clientConfig" c5TickedDescription "Boolean" =
      Except.ok (some "x_y_strategy_Webhook => x_y_clientConfig") ∧
    generarConstraintsDef [⟨"x_y_clientConfig", c5TickedDescription, "Boolean"⟩] =
      Except.ok (["x_y_strategy_Webhook => x_y_clientConfig"], 0) :=
  ⟨rfl, rfl⟩

/-- C8: numeric bound synthesis for Integer records: `Minimum value is 1024`
on `spec_port` yields `spec_port > 1024`; `must be between 0 and 100` yields
`f > 0 & f < 100` with the `is_other_number` flag set; `valid port number`
yields `f > 1 & f < 65535`, and the defaults `1` / `65535` are substituted
exactly for the bounds absent from the text. -/
theorem c8_numeric_bounds :
    convertToUvlConstraints "spec_port" "Minimum value is 1024." "Integer" =
      Except.ok (some "spec_port > 1024") ∧
    convertToUvlConstraints "f" "The value must be between 0 and 100." "Integer" =
      Except.ok (some "f > 0 & f < 100") ∧
    extractBounds "The value must be between 0 and 100." =
      ⟨some 0, some 100, false, true⟩ ∧
    convertToUvlConstraints "f" "The port represents a valid port number." "Integer" =
      Except.ok (some "f > 1 & f < 65535") ∧
    convertToUvlConstraints "f"
      "The port is a valid port number less than or equal to 80." "Integer" =
      Except.ok (some "f > 1 & f < 81") :=
  ⟨rfl, rfl, rfl, rfl, rfl⟩

/-- C9 counterexample: a record whose description matches the
`Exactly one of` dispatch trigger but not the extraction patterns produces an
empty rule: nothing is emitted and the counter is not incremented, so the
reported count (0) undercounts the records that produced no constraint (1). -/
theorem c9_counterexample :
    generarConstraintsDef c9badRecs = Except.ok ([], 0) ∧ c9badRecs.length = 1 :=
  ⟨rfl, rfl⟩

/-- C9 amended: for every record list whose conversions do not raise, the
emitted constraints are the nonempty returned rules, and the reported count
equals the number of records whose conversion returned `None` — records whose
extractor returned the empty string are dropped without being counted. -/
theorem c9_amended (recs : List DescriptionRecord)
    (h : ∀ r ∈ recs, recIsError r = false) :
    generarConstraintsDef recs =
      Except.ok (recs.filterMap emittedRule, (recs.filter recNoRule).length) := by
  have := generarGo_spec recs [] 0 h
  simpa [generarConstraintsDef] using this

/-- Witness for C9 amended at a concrete record list covering all three
outcomes (emitted rule, empty rule, `None`). -/
theorem c9_amended_witness :
    (∀ r ∈ c9recs, recIsError r = false) ∧
    generarConstraintsDef c9recs =
      Except.ok (c9recs.filterMap emittedRule, (c9recs.filter recNoRule).length) :=
  ⟨by decide, c9_amended c9recs (by decide)⟩

/-- C1 counterexample: in the two-path scenario the builder checks the bare
qualified path `root_p_q` but marks the cardinality-annotated final name, so
the array-typed property is emitted twice (once per expansion path) and its
bare qualified path is never marked processed — the at-most-once guarantee
fails for annotated names. -/
theorem c1_counterexample :
    (parsePropsF c1Defs 100 [] c1Props [] "root" 0 GState.init LState.init).map
      (fun r => ((r.1 ++ r.2.1).map (fun f => f.subFeatures.map Feature.name),
                 r.2.2.1.processed)) =
      some ([["root_p_q cardinality [1..*]", "root_p_q cardinality [1..*]"]],
        ["root_p_q cardinality [1..*]", "root_p"]) ∧
    (["root_p_q cardinality [1..*]", "root_p"] : List String).contains
      (qualifiedName "root_p" "q") = false :=
  ⟨rfl, by decide⟩

/-- C1 amended: the processed-set skip is sound as claimed — a property whose
qualified path is already marked is skipped entirely with no effect — but
marking uses the final (possibly annotated) feature name, so the
at-most-once guarantee holds only for properties whose final name is the
bare qualified path: in the non-annotated two-path scenario the sub-feature
appears once and its path is marked. -/
theorem c1_amended :
    (∀ (defs : List (String × Schema)) (n : Nat) (stack : List String)
       (prop : String) (details : Schema) (rest : List (String × Schema))
       (required : List String) (parent : String) (depth : Nat)
       (g : GState) (l : LState),
      g.processed.contains (qualifiedName parent prop) = true →
      parsePropsF defs (n + 1) stack ((prop, details) :: rest) required parent
          depth g l =
        parsePropsF defs n stack rest required parent depth g l) ∧
    (parsePropsF c1bDefs 100 [] c1bProps [] "root" 0 GState.init LState.init).map
      (fun r => ((r.1 ++ r.2.1).map (fun f => f.subFeatures.map Feature.name),
                 r.2.2.1.processed)) =
      some ([["root_p_q"]], ["root_p_q", "root_p"]) ∧
    (["root_p_q", "root_p"] : List String).contains
      (qualifiedName "root_p" "q") = true :=
  ⟨parsePropsF_skip, rfl, by decide⟩

/-- Witness for the C1 amendment: a concrete already-processed property is
skipped verbatim. -/
theorem c1_amended_witness :
    (GState.mk ["root_p"] [] [] [] [] "" false false).processed.contains
      (qualifiedName "root" "p") = true ∧
    parsePropsF [] 6 [] [("p", Schema.leaf none "")] [] "root" 0
        (GState.mk ["root_p"] [] [] [] [] "" false false) LState.init =
      parsePropsF [] 5 [] [] [] "root" 0
        (GState.mk ["root_p"] [] [] [] [] "" false false) LState.init :=
  ⟨by decide, c1_amended.1 [] 5 [] "p" (Schema.leaf none "") [] [] "root" 0
    (GState.mk ["root_p"] [] [] [] [] "" false false) LState.init (by decide)⟩

/-- C2: `parse_properties` terminates on every input schema — some fuel
always suffices, by the measure bound of `parsePropsF_total`; a reference
already on the branch-local stack makes the property be skipped via the
source `continue` with only the pre-stage bookkeeping retained; and in the
concrete self-referential scenario each of two sibling references to the
same definition is fully expanded with its cyclic branch omitted (the
branch-local stack does not poison siblings). -/
theorem c2_cycle_termination :
    (∀ (defs : List (String × Schema)) (stack : List String)
       (props : List (String × Schema)) (required : List String)
       (parent : String) (depth : Nat) (g : GState) (l : LState),
      ∃ n, (parsePropsF defs n stack props required parent depth g
        l).isSome = true) ∧
    (∀ (defs : List (String × Schema)) (n : Nat) (stack : List String)
       (prop : String) (details : Schema) (rest : List (String × Schema))
       (required : List String) (parent : String) (depth : Nat)
       (g : GState) (l : LState) (ref : String),
      g.processed.contains (qualifiedName parent prop) = false →
      details.ref? = some ref → stack.contains ref = true →
      parsePropsF defs (n + 1) stack ((prop, details) :: rest) required parent
          depth g l =
        parsePropsF defs n stack rest required parent depth
          (preStage prop details required parent g l).g
          (preStage prop details required parent g l).l) ∧
    (parsePropsF c2Defs 100 [] c2Props [] "r" 0 GState.init LState.init).map
      (fun r => (r.1 ++ r.2.1).map
        (fun f => (f.name, f.subFeatures.map Feature.name))) =
      some [("r_a", ["r_a_leaf"]), ("r_b", ["r_b_leaf"])] :=
  ⟨fun defs stack props required parent depth g l =>
    ⟨refsAvail defs stack * (sizeOf defs + 1) + sizeOf props + 1,
     parsePropsF_total _ defs stack props required parent depth g l
       (Nat.lt_succ_self _)⟩,
   parsePropsF_cycle, rfl⟩

/-- Witness for C2 at the self-referential scenario: fuel exists for the
concrete input, and a concrete cyclic head property reduces to the skip. -/
theorem c2_cycle_termination_witness :
    (∃ n, (parsePropsF c2Defs n [] c2Props [] "r" 0 GState.init
      LState.init).isSome = true) ∧
    GState.init.processed.contains (qualifiedName "r" "self") = false ∧
    (Schema.refNode "#/definitions/D").ref? = some "#/definitions/D" ∧
    (["#/definitions/D"] : List String).contains "#/definitions/D" = true ∧
    parsePropsF c2Defs 8 ["#/definitions/D"]
        [("self", Schema.refNode "#/definitions/D")] [] "r" 0
        GState.init LState.init =
      parsePropsF c2Defs 7 ["#/definitions/D"] [] [] "r" 0
        (preStage "self" (Schema.refNode "#/definitions/D") [] "r"
          GState.init LState.init).g
        (preStage "self" (Schema.refNode "#/definitions/D") [] "r"
          GState.init LState.init).l :=
  ⟨c2_cycle_termination.1 c2Defs [] c2Props [] "r" 0 GState.init LState.init,
   by decide, rfl, by decide,
   c2_cycle_termination.2.1 c2Defs 7 ["#/definitions/D"] "self"
     (Schema.refNode "#/definitions/D") [] [] "r" 0 GState.init LState.init
     "#/definitions/D" (by decide) rfl (by decide)⟩

/-- C4: the classifier calls `is_valid_description(description,
feature_name)` against the signature `(feature_name, description)`, so the
10-character minimum is applied to the feature path: the short path `a_b`
with a long trigger-matching description is rejected outright (no record,
`False`, state unchanged) even though the restriction trigger matches the
description, while the same check in the declared argument order accepts the
pair. -/
theorem c4_swapped_length_check :
    restrictionsMatch c4Description = true ∧
    ("a_b".length < 10 ∧ 10 ≤ c4Description.length) ∧
    categorizeDescription c4Description "a_b" "Boolean" GState.init =
      (false, GState.init) ∧
    (isValidDescription GState.init.seenDescriptions "a_b" c4Description).1 =
      true :=
  ⟨rfl, by decide, rfl, rfl⟩

/-- C6 counterexample: the boolean-keyword field `datasetUUID`, declared
`string` with an empty description and no extracted value set, keeps its
declared `string` type and gets no synthetic child — the keyword override
runs only inside the nonempty-description branch — so the node is serialized
with a `String ` prefix, not as an untyped Boolean with a `_nameStr` child. -/
theorem c6_counterexample :
    (parsePropsF [] 100 [] c6aProps [] "x" 0 GState.init LState.init).map
      (fun r => (r.1 ++ r.2.1).map
        (fun f => (f.typeData, uvlTypePrefix f, f.subFeatures.length))) =
      some [("string", "String ", 0)] := rfl

/-- C6 amended: with a nonempty description the keyword override applies as
claimed: the node type becomes Boolean (serialized with the empty type
prefix) and exactly one synthetic mandatory `String` child whose name ends
in `_nameStr` is appended, itself serialized with a `String ` prefix. -/
theorem c6_amended :
    (parsePropsF [] 100 [] c6bProps [] "root2" 0 GState.init LState.init).map
      (fun r => (r.1 ++ r.2.1).map (fun f =>
        (f.typeData, uvlTypePrefix f,
         f.subFeatures.map (fun s =>
           (strOf (stripBracesL s.name.data), s.ftype, s.typeData,
            uvlTypePrefix s))))) =
      some [("", "",
        [("root2_datasetUUID_nameStr", "mandatory", "String", "String ")])] :=
  rfl

set_option maxRecDepth 40000 in
/-- C7 counterexample: a description whose extracted set is exactly the
plain literal set of the claim keeps `None`: the special case compares
against `case_not_none`, whose `ClusterIP` entry carries the default marker,
so the plain set does not trigger the removal. -/
theorem c7_counterexample :
    extractValues c7PlainDescription =
      some ["NodePort", "ClusterIP", "None", "LoadBalancer", "ExternalName"] ∧
    (extractValues c7PlainDescription).map (fun vs => vs.contains "None") =
      some true :=
  ⟨rfl, rfl⟩

set_option maxRecDepth 40000 in
/-- C7 amended: `extract_values` returns no set whenever the deduplicated
candidate set has at most one element (first half of the claim, proven in
general), and the `None` removal fires exactly on the marked literal set:
with a default clause the extracted set equals `case_not_none` and `None` is
dropped. -/
theorem c7_amended :
    (∀ d : String,
      (dedupFirst (collectValues (patternsProcessEnumValuesDefault d)
        (valuePatternsAll d.data))).length ≤ 1 →
      extractValues d = none) ∧
    extractValues c7DefaultDescription =
      some ["NodePort", "ClusterIP \x7bdefault\x7d", "LoadBalancer",
        "ExternalName"] := by
  refine ⟨?_, rfl⟩
  intro d hlen
  unfold extractValues
  split
  · rfl
  · rcases hn : dedupFirst (collectValues (patternsProcessEnumValuesDefault d)
        (valuePatternsAll d.data)) with _ | ⟨a, as⟩
    · simp [hn]
    · rcases as with _ | ⟨b, bs⟩
      · simp [hn]
      · rw [hn] at hlen; simp at hlen

/-- Witness for the C7 amendment at a trigger-matching description with an
empty candidate set. -/
theorem c7_amended_witness :
    (dedupFirst (collectValues (patternsProcessEnumValuesDefault
        "The values are as described elsewhere entirely.")
      (valuePatternsAll
        "The values are as described elsewhere entirely.".data))).length ≤ 1 ∧
    extractValues "The values are as described elsewhere entirely." = none :=
  ⟨by decide, c7_amended.1 "The values are as described elsewhere entirely."
    (by decide)⟩

end FMGen
